import Mathlib

/-!
# Verification of the blog platform's regeneration cascade and helpers

Shallow embedding of `src/index copy.ts` (a Cloudflare-Workers blog backend)
and `migrations/init.sql`.  Relational rows become Lean structures, the
D1/SQL queries used by the handlers become list functions, and each HTTP
handler's body becomes a pure state-passing function.  ISO-8601 timestamp
strings are kept as `String` for post ordering (SQLite compares them as
strings, which for this format coincides with chronological order), while
comment timestamps — which the code subjects to millisecond arithmetic for
rate limiting — are modelled as `Int` milliseconds.
-/

set_option maxRecDepth 20000

namespace Blog

/-- JS `x?.v || d` / `x || d` on an optional string: `null`/`undefined` and
the empty string are falsy and select the default. -/
def jsOr (o : Option String) (d : String) : String :=
  match o with
  | some s => if s = "" then d else s
  | none => d

/-- JS truthiness of a nullable string (`null`, `undefined` and `""` are falsy). -/
def jsStrTruthy (o : Option String) : Bool :=
  match o with
  | some s => s ≠ ""
  | none => false

/-- JS `x || null` on a nullable string: the empty string collapses to `null`. -/
def jsOrNull (o : Option String) : Option String :=
  match o with
  | some s => if s = "" then none else some s
  | none => none

/-- A row of the `posts` table (`migrations/init.sql`).  `tags` holds a
serialized JSON string array in the source; it is modelled as the encoded
list (`none` = SQL `NULL`, `some l` = `JSON.stringify l`, which is truthy
even for `[]`).  `published_at` is the ISO timestamp string; `""` models
SQL `NULL`/empty. -/
structure Post where
  id : String
  title : String
  slug : String
  content : String
  category : Option String
  tags : Option (List String)
  feature_image : Option String
  published_at : String
  is_published : Bool
  is_draft : Bool
  is_pinned : Bool
  deriving Repr, DecidableEq

/-- A row of the `comments` table.  `created_at` is modelled as epoch
milliseconds (the code compares it against `Date.now() - 60*1000`). -/
structure Comment where
  id : String
  post_id : String
  author : String
  email : Option String
  content : String
  ip_address : String
  created_at : Int
  is_approved : Bool
  parent_id : Option String
  reply_to : Option String
  deriving Repr, DecidableEq

/-- A row of the `ip_blacklist` table; `expires_at` modelled as epoch
milliseconds (`none` = SQL `NULL`). -/
structure BlacklistEntry where
  id : String
  ip_address : String
  reason : Option String
  expires_at : Option Int
  deriving Repr, DecidableEq

/-- The relational store visible to the handlers under scrutiny. -/
structure Store where
  posts : List Post
  comments : List Comment
  blacklist : List BlacklistEntry
  settings : List (String × String)
  views : List (String × Nat)
  deriving Repr, DecidableEq

/-- `SELECT * FROM posts WHERE id = ?` followed by `.first()`. -/
def lookupById (posts : List Post) (pid : String) : Option Post :=
  posts.find? (fun q => q.id = pid)

/-- `SELECT value FROM settings WHERE key = ?` followed by `.first()`. -/
def getSetting (store : Store) (key : String) : Option String :=
  (store.settings.find? (fun kv => kv.1 = key)).map (·.2)

/-- `SELECT view_count FROM post_views WHERE post_id = ?`, with the
handler's `viewsResult?.view_count || 0`. -/
def viewCountOf (store : Store) (pid : String) : Nat :=
  ((store.views.find? (fun kv => kv.1 = pid)).map (·.2)).getD 0

/-- Strict lexicographic order on character lists by code point, a shorter
list preceding its extensions — SQLite's comparison of TEXT values, which
on ISO-8601 timestamps coincides with chronological order. -/
def charListLt : List Char → List Char → Bool
  | _, [] => false
  | [], _ :: _ => true
  | a :: as, b :: bs =>
    if a.toNat < b.toNat then true
    else if b.toNat < a.toNat then false
    else charListLt as bs

/-- `a < b` on timestamp strings, as the store compares them. -/
def tsLt (a b : String) : Bool := charListLt a.data b.data

/-- `a ≤ b` on timestamp strings. -/
def tsLe (a b : String) : Bool := !(tsLt b a)

/-- JS `String#trim`: strip leading and trailing whitespace. -/
def jsTrim (s : String) : String :=
  ⟨((s.data.dropWhile Char.isWhitespace).reverse.dropWhile Char.isWhitespace).reverse⟩

/-- Scan for the first maximum of `key` (later elements replace the current
best only on strict improvement), starting from `best`.  Models
`ORDER BY key DESC LIMIT 1` with a deterministic tie-break (first row). -/
def maxScan (key : Post → String) (best : Post) : List Post → Post
  | [] => best
  | q :: rest => maxScan key (if tsLt (key best) (key q) then q else best) rest

/-- First row attaining the maximum of `key`, if any. -/
def firstMaxBy (key : Post → String) : List Post → Option Post
  | [] => none
  | q :: rest => some (maxScan key q rest)

/-- Scan for the first minimum of `key`.  Models `ORDER BY key ASC LIMIT 1`. -/
def minScan (key : Post → String) (best : Post) : List Post → Post
  | [] => best
  | q :: rest => minScan key (if tsLt (key q) (key best) then q else best) rest

/-- First row attaining the minimum of `key`, if any. -/
def firstMinBy (key : Post → String) : List Post → Option Post
  | [] => none
  | q :: rest => some (minScan key q rest)

/-- `SELECT * FROM posts WHERE published_at < ? ORDER BY published_at DESC
LIMIT 1` — the *unfiltered* neighbour query used by the PUT and DELETE
handlers (no `is_published`/`is_draft` condition). -/
def prevAny (posts : List Post) (t : String) : Option Post :=
  firstMaxBy (·.published_at) (posts.filter (fun q => tsLt q.published_at t))

/-- `SELECT * FROM posts WHERE published_at > ? ORDER BY published_at ASC
LIMIT 1` — unfiltered, as in the PUT and DELETE handlers. -/
def nextAny (posts : List Post) (t : String) : Option Post :=
  firstMinBy (·.published_at) (posts.filter (fun q => tsLt t q.published_at))

/-- `SELECT title, slug FROM posts WHERE is_published = true AND
published_at < ? ORDER BY published_at DESC LIMIT 1` — the renderer's
`prevPost` query (`generateAndStoreStaticPage`), also used (with `SELECT *`)
by the create handler.  It filters on `is_published` only, never on
`is_draft`. -/
def prevPublished (posts : List Post) (t : String) : Option Post :=
  firstMaxBy (·.published_at)
    (posts.filter (fun q => q.is_published && tsLt q.published_at t))

/-- `SELECT title, slug FROM posts WHERE is_published = true AND
published_at > ? ORDER BY published_at ASC LIMIT 1` — the renderer's
`nextPost` query. -/
def nextPublished (posts : List Post) (t : String) : Option Post :=
  firstMinBy (·.published_at)
    (posts.filter (fun q => q.is_published && tsLt t q.published_at))

/-- The spec's neighbour definition, written from its words: "`prev` = the
published, non-draft post with the greatest publish timestamp strictly less
than the given one".  Used only to state the claims as written, for
comparison with the queries above. -/
def specPrevNeighbor (posts : List Post) (t : String) : Option Post :=
  firstMaxBy (·.published_at)
    (posts.filter (fun q => q.is_published && !q.is_draft && tsLt q.published_at t))

/-- The spec's neighbour definition for `next`: "the published, non-draft
post with the smallest publish timestamp strictly greater than it". -/
def specNextNeighbor (posts : List Post) (t : String) : Option Post :=
  firstMinBy (·.published_at)
    (posts.filter (fun q => q.is_published && !q.is_draft && tsLt t q.published_at))

/-! ## Slug generation (`generateUniqueSlug`) -/

/-- ASCII digit character for `d < 10`. -/
def digitCh (d : Nat) : Char := Char.ofNat (48 + d)

/-- Decimal digits, most significant first, with structural fuel (the
recursion divides by ten, so `fuel = n` always suffices; see
`decVal_decDigits`). -/
def decDigitsGo : Nat → Nat → List Char
  | 0, n => [digitCh n]
  | fuel + 1, n =>
    if n < 10 then [digitCh n]
    else decDigitsGo fuel (n / 10) ++ [digitCh (n % 10)]

/-- Decimal digits of a natural number, most significant first — the string
JS produces for `${suffix}` on an integer. -/
def decDigits (n : Nat) : List Char := decDigitsGo n n

/-- Decimal decoding, the left inverse of `decDigits`. -/
def decVal (l : List Char) : Nat := l.foldl (fun a c => 10 * a + (c.toNat - 48)) 0

/-- Decimal rendering of a natural number as a string. -/
def natToDec (n : Nat) : String := ⟨decDigits n⟩

/-- JS `\s` (plus the explicit ` ` of the source regex): whitespace
characters whose runs `generateUniqueSlug` replaces by a hyphen. -/
def isJsWs (c : Char) : Bool :=
  c = ' ' || c = '\t' || c = '\n' || c.val = 11 || c.val = 12 || c = '\r' ||
  c.val = 0xA0 || c.val = 0x1680 || (0x2000 ≤ c.val && c.val ≤ 0x200A) ||
  c.val = 0x2028 || c.val = 0x2029 || c.val = 0x202F || c.val = 0x205F ||
  c.val = 0x3000 || c.val = 0xFEFF

/-- `.replace(/[\s ]+/g, '-')`: every maximal whitespace run becomes a
single hyphen. -/
def collapseWsGo (inRun : Bool) : List Char → List Char
  | [] => []
  | c :: rest =>
    if isJsWs c then
      if inRun then collapseWsGo true rest else '-' :: collapseWsGo true rest
    else c :: collapseWsGo false rest

/-- Every maximal whitespace run becomes a single hyphen (state-machine
rendition of the global regex replace; the flag records being inside a
run). -/
def collapseWs (l : List Char) : List Char := collapseWsGo false l

/-- The allow-list of `.replace(/[^a-z0-9一-龥-_]/g, '')`:
lower-case ASCII letters, ASCII digits, the CJK range U+4E00–U+9FA5,
hyphen and underscore. -/
def isSlugChar (c : Char) : Bool :=
  ('a' ≤ c && c ≤ 'z') || ('0' ≤ c && c ≤ '9') ||
  (0x4E00 ≤ c.val && c.val ≤ 0x9FA5) || c = '-' || c = '_'

/-- `.replace()` with pattern `-{2,}` (global): every maximal hyphen run becomes a single
hyphen (a lone hyphen is already a run of one). -/
def collapseHyphensGo (inRun : Bool) : List Char → List Char
  | [] => []
  | c :: rest =>
    if c = '-' then
      if inRun then collapseHyphensGo true rest else '-' :: collapseHyphensGo true rest
    else c :: collapseHyphensGo false rest

/-- Every maximal hyphen run becomes a single hyphen (state-machine
rendition of the global regex replace). -/
def collapseHyphens (l : List Char) : List Char := collapseHyphensGo false l

/-- `.replace(/^-|-$/g, '')`: strip one leading and one trailing hyphen. -/
def trimHyphens (l : List Char) : List Char :=
  let l1 := match l with
    | '-' :: rest => rest
    | other => other
  match l1.reverse with
  | '-' :: rest => rest.reverse
  | _ => l1

/-- Steps 1–5 of `generateUniqueSlug`: lower-case, whitespace runs to a
hyphen, strip disallowed characters, collapse hyphen runs, trim an outer
hyphen.  `Char.toLower` models JS `toLowerCase` (ASCII; characters outside
the allow-list are removed next regardless of case). -/
def slugifyRaw (title : String) : String :=
  ⟨trimHyphens (collapseHyphens ((collapseWs (title.data.map Char.toLower)).filter isSlugChar))⟩

/-- Steps 1–5 plus the empty-result fallback: `if (!slug) slug = 'post'`. -/
def slugBase (title : String) : String :=
  let s := slugifyRaw title
  if s = "" then "post" else s

/-- The `k`-th candidate tried by the collision loop: the base slug itself,
then `base-1`, `base-2`, …. -/
def slugCandidate (base : String) (k : Nat) : String :=
  if k = 0 then base else base ++ "-" ++ natToDec k

/-- `SELECT id FROM posts WHERE slug = ? AND id != ?` (resp. without the
exclusion when no `excludeId` is passed), as a Boolean collision test. -/
def slugTaken (posts : List Post) (excludeId : Option String) (s : String) : Bool :=
  posts.any (fun q => q.slug = s &&
    (match excludeId with
     | some e => q.id ≠ e
     | none => true))

/-- The `while (true)` collision loop, bounded by fuel.  The source loops
unboundedly; `generateUniqueSlug_spec` proves that the fuel supplied below
always suffices, so the fuel-exhausted branch (which returns the current
candidate) is unreachable. -/
def slugLoop (taken : String → Bool) (base : String) : Nat → Nat → String
  | k, 0 => slugCandidate base k
  | k, fuel + 1 =>
    let c := slugCandidate base k
    if taken c then slugLoop taken base (k + 1) fuel else c

/-- `generateUniqueSlug(db, title, excludeId)`.  Fuel `posts.length + 1`
covers one candidate more than there are rows. -/
def generateUniqueSlug (posts : List Post) (title : String) (excludeId : Option String) :
    String :=
  slugLoop (slugTaken posts excludeId) (slugBase title) 0 (posts.length + 1)

/-! ## Post handlers (`api.post/put/delete('/posts...')`, `/rebuild-all`) -/

/-- `CreatePostInput` (plus the `is_draft`/`is_pinned` fields the create
handler reads from the body at runtime).  Absent JSON fields are `none`. -/
structure CreateInput where
  title : String := ""
  content : Option String := none
  category : Option String := none
  tags : Option (List String) := none
  feature_image : Option String := none
  is_published : Option Bool := none
  is_draft : Option Bool := none
  is_pinned : Option Bool := none
  deriving Repr, DecidableEq

/-- `UpdatePostInput` as the PUT handler consumes it at runtime: every post
column it can write.  `feature_image`'s outer `Option` is JSON
presence/absence; the inner one distinguishes an explicit `null` (`some
none`) from a string.  `published_at` is accepted by the handler's generic
`SET` clause even though the declared TS type omits it. -/
structure UpdateInput where
  title : Option String := none
  content : Option String := none
  category : Option String := none
  tags : Option (List String) := none
  feature_image : Option (Option String) := none
  is_published : Option Bool := none
  is_draft : Option Bool := none
  is_pinned : Option Bool := none
  published_at : Option String := none
  deriving Repr, DecidableEq

/-- The row written by the PUT handler: `updates = {...body}` with
`slug` regenerated only when `body.title` is truthy and differs from the
stored title, `feature_image === '' || === null` collapsed to the site
banner, and the other supplied fields overwriting the stored ones
(`{...originalPost, ...updates}`). -/
def applyUpdate (posts : List Post) (p : Post) (b : UpdateInput) : Post :=
  { p with
    title := b.title.getD p.title
    slug :=
      match b.title with
      | some t => if t ≠ "" ∧ t ≠ p.title then generateUniqueSlug posts t (some p.id) else p.slug
      | none => p.slug
    content := b.content.getD p.content
    category := match b.category with | some c => some c | none => p.category
    tags := match b.tags with | some l => some l | none => p.tags
    feature_image :=
      match b.feature_image with
      | some none => some "/assets/banner.jpg"
      | some (some s) => if s = "" then some "/assets/banner.jpg" else some s
      | none => p.feature_image
    is_published := b.is_published.getD p.is_published
    is_draft := b.is_draft.getD p.is_draft
    is_pinned := b.is_pinned.getD p.is_pinned
    published_at := b.published_at.getD p.published_at }

/-- `api.post('/posts')`: returns `none` on the 400 (missing title) path,
otherwise the new table contents together with the list of posts whose
static pages the deferred cascade regenerates, in order: the new post, then
`SELECT * FROM posts WHERE is_published = true AND published_at < ? ORDER BY
published_at DESC LIMIT 1` when it exists. -/
def createPost (posts : List Post) (input : CreateInput) (newId : String) (now : String) :
    Option (List Post × List Post) :=
  if input.title = "" then none
  else
    let g := generateUniqueSlug posts input.title (some newId)
    let slug := if g = "" then newId else g
    let newPost : Post :=
      { id := newId
        title := input.title
        slug := slug
        content := input.content.getD ""
        category := some (jsOr input.category "Uncategorized")
        tags := some (input.tags.getD [])
        feature_image := some (jsOr input.feature_image "/assets/banner.jpg")
        published_at := now
        is_published := input.is_published.getD true
        is_draft := input.is_draft.getD false
        is_pinned := input.is_pinned.getD false }
    let posts' := posts ++ [newPost]
    some (posts', newPost :: (prevPublished posts' now).toList)

/-- The deduplicating `Set` of old-neighbour identifiers built by the PUT
handler (`neighborsToUpdate`), in insertion order: `originalPrev`'s id, then
`originalNext`'s id if distinct. -/
def oldNeighborIds (posts : List Post) (t : String) : List String :=
  let l1 := ((prevAny posts t).map (·.id)).toList
  match nextAny posts t with
  | some q => if l1.contains q.id then l1 else l1 ++ [q.id]
  | none => l1

/-- `api.put('/posts/:id')`: `none` on the 404 path; otherwise the table
after the `UPDATE` together with the regeneration list of the deferred
cascade, in the handler's order: the updated post itself, the new prev/next
neighbours (each skipped when already in `neighborsToUpdate`), then each old
neighbour re-fetched by id. -/
def putPost (posts : List Post) (pid : String) (b : UpdateInput) :
    Option (List Post × List Post) :=
  match lookupById posts pid with
  | none => none
  | some orig =>
    let olds := oldNeighborIds posts orig.published_at
    let updated := applyUpdate posts orig b
    let posts' := posts.map (fun q => if q.id = pid then updated else q)
    let newPrev := prevAny posts' updated.published_at
    let newNext := nextAny posts' updated.published_at
    let regens :=
      [updated]
      ++ (match newPrev with
          | some q => if olds.contains q.id then [] else [q]
          | none => [])
      ++ (match newNext with
          | some q => if olds.contains q.id then [] else [q]
          | none => [])
      ++ olds.filterMap (lookupById posts')
    some (posts', regens)

/-- The table contents after the PUT handler's `UPDATE` (a decomposition of
`putPost` used to state its cascade property): every row carrying the
updated post's id is replaced by the updated row. -/
def postsAfterPut (posts : List Post) (pid : String) (b : UpdateInput) (orig : Post) :
    List Post :=
  posts.map (fun q => if q.id = pid then applyUpdate posts orig b else q)

/-- The identifiers of the updated post's neighbours *after* the update —
the PUT handler's `newPrev`/`newNext` queries, run against the updated
table at the updated timestamp. -/
def newNeighborIds (posts : List Post) (pid : String) (b : UpdateInput) (orig : Post) :
    List String :=
  ((prevAny (postsAfterPut posts pid b orig) (applyUpdate posts orig b).published_at).map
      (·.id)).toList ++
  ((nextAny (postsAfterPut posts pid b orig) (applyUpdate posts orig b).published_at).map
      (·.id)).toList

/-- `api.delete('/posts/:id')`: `none` on the 404 path; otherwise the table
after `DELETE FROM posts WHERE id = ?`, the blob keys removed from the
static-page bucket, and the regeneration list (captured prev then next,
before the delete). -/
def deletePost (posts : List Post) (pid : String) :
    Option (List Post × List String × List Post) :=
  match lookupById posts pid with
  | none => none
  | some p =>
    let prev := prevAny posts p.published_at
    let next := nextAny posts p.published_at
    let posts' := posts.filter (fun q => ¬ q.id = pid)
    some (posts', [p.slug], prev.toList ++ next.toList)

/-- `api.post('/rebuild-all')`: the posts whose pages the background task
regenerates — `SELECT * FROM posts WHERE is_published = true`, skipping rows
with a falsy `slug`. -/
def rebuildPosts (posts : List Post) : List Post :=
  posts.filter (fun p => p.is_published && p.slug ≠ "")

/-- The slugs regenerated by `/rebuild-all`. -/
def rebuildTargets (posts : List Post) : List String :=
  (rebuildPosts posts).map (·.slug)

/-! ## Comment submission (`app.post('/api/posts/:postId/comments')`) -/

/-- `isIpBlacklisted`: `SELECT id FROM ip_blacklist WHERE ip_address = ?` —
a pure equality match on the address; the `expires_at` column is never
consulted. -/
def isIpBlacklisted (entries : List BlacklistEntry) (ip : String) : Bool :=
  entries.any (fun e => e.ip_address = ip)

/-- The comments counted by the anti-flood check: same IP, created strictly
after `Date.now() - 60 * 1000`. -/
def recentCommentCount (comments : List Comment) (ip : String) (now : Int) : Nat :=
  (comments.filter (fun c => c.ip_address = ip && decide (now - 60000 < c.created_at))).length

/-- Outcome of a comment submission, tagged with the handler's HTTP status. -/
inductive SubmitOutcome where
  | blacklisted
  | postNotFound
  | invalidInput
  | parentNotFound
  | rateLimited
  | created (c : Comment)
  deriving Repr, DecidableEq

/-- HTTP status code of each outcome. -/
def SubmitOutcome.status : SubmitOutcome → Nat
  | .blacklisted => 403
  | .postNotFound => 404
  | .invalidInput => 400
  | .parentNotFound => 404
  | .rateLimited => 429
  | .created _ => 201

/-- `if (parent_id) { ... }`: when `parent_id` is truthy, the parent comment
is looked up (`none` = 404 "parent not found") and its author replaces the
submitted `reply_to`; otherwise the submitted `reply_to` passes through. -/
def resolveReplyTo (comments : List Comment) (parentId : Option String)
    (replyTo : Option String) : Option (Option String) :=
  if jsStrTruthy parentId then
    (comments.find? (fun c => some c.id = parentId)).map (fun c => some c.author)
  else some replyTo

/-- The comment-submission handler, in its order of checks: blacklist,
post existence, non-empty trimmed author/content, parent resolution,
rate limit, insert (always unapproved). -/
def submitComment (store : Store) (postId : String) (author : String)
    (email : Option String) (content : String) (parentId : Option String)
    (replyTo : Option String) (ip : String) (now : Int) (newId : String) :
    SubmitOutcome × Store :=
  if isIpBlacklisted store.blacklist ip then (.blacklisted, store)
  else if ¬ store.posts.any (fun p => p.id = postId) then (.postNotFound, store)
  else if jsTrim author = "" ∨ jsTrim content = "" then (.invalidInput, store)
  else
    let parentTruthy := jsStrTruthy parentId
    match resolveReplyTo store.comments parentId replyTo with
    | none => (.parentNotFound, store)
    | some replyToName =>
      if 3 ≤ recentCommentCount store.comments ip now then (.rateLimited, store)
      else
        let c : Comment :=
          { id := newId
            post_id := postId
            author := jsTrim author
            email := jsOrNull (email.map jsTrim)
            content := jsTrim content
            ip_address := ip
            created_at := now
            is_approved := false
            parent_id := if parentTruthy then parentId else none
            reply_to := jsOrNull replyToName }
        (.created c, { store with comments := store.comments ++ [c] })

/-! ## Static page renderer (`generateAndStoreStaticPage`) -/

/-- External collaborators of the renderer, fixed for a deployment: the
Markdown converter (`marked.parse`) and the JS date formatters
(`Date#toLocaleDateString` on an ISO string, `Date#toLocaleString` on an
epoch-milliseconds comment timestamp).  Each is a pure function of its
input. -/
structure RenderEnv where
  markedParse : String → String
  toLocaleDateStr : String → String
  toLocaleStr : Int → String

/-- `new Date().getFullYear()` of an ISO timestamp string. -/
def yearOf (now : String) : String := now.take 4

/-- The `ICONS.folder` SVG constant interpolated into the client script. -/
def svgFolder : String :=
  "<svg xmlns=\"http://www.w3.org/2000/svg\" class=\"h-5 w-5 mr-2 inline-block text-slate-400\" viewBox=\"0 0 20 20\" fill=\"currentColor\"><path d=\"M2 6a2 2 0 012-2h5l2 2h5a2 2 0 012 2v6a2 2 0 01-2 2H4a2 2 0 01-2-2V6z\" /></svg>"

/-- The `ICONS.tag` SVG constant interpolated into the client script. -/
def svgTag : String :=
  "<svg xmlns=\"http://www.w3.org/2000/svg\" class=\"h-4 w-4 mr-1 inline-block\" viewBox=\"0 0 20 20\" fill=\"currentColor\"><path fill-rule=\"evenodd\" d=\"M17.707 9.293a1 1 0 010 1.414l-7 7a1 1 0 01-1.414 0l-7-7A.997.997 0 012 10V5a3 3 0 013-3h5a.997.997 0 01.707.293l7 7zM5 6a1 1 0 100-2 1 1 0 000 2z\" clip-rule=\"evenodd\" /></svg>"

/-- The `ICONS.link` SVG constant interpolated into the client script. -/
def svgLink : String :=
  "<svg xmlns=\"http://www.w3.org/2000/svg\" class=\"h-5 w-5 mr-2 inline-block text-slate-400\" viewBox=\"0 0 20 20\" fill=\"currentColor\"><path fill-rule=\"evenodd\" d=\"M12.586 4.586a2 2 0 112.828 2.828l-3 3a2 2 0 01-2.828 0m-2.828-2.828a2 2 0 012.828 0l3 3a2 2 0 11-2.828 2.828l-3-3a2 2 0 010-2.828z\" clip-rule=\"evenodd\" /><path fill-rule=\"evenodd\" d=\"M4.586 12.586a2 2 0 010-2.828l3-3a2 2 0 112.828 2.828l-3 3a2 2 0 01-2.828 0z\" clip-rule=\"evenodd\" /></svg>"

/-- The `/tags/` anchor produced for one tag by the tag-list map. -/
def tagLink (tag : String) : String :=
  "<a href=\"/tags/"
  ++ (tag)
  ++ "\" class=\"text-sm text-sky-600 hover:underline\">"
  ++ (tag)
  ++ "</a>"

/-- The tags block: rendered only when the stored `tags` column is truthy
(a serialized JSON array — truthy even when the list is empty; SQL `NULL`
is falsy). -/
def tagsBlock : Option (List String) → String
  | some l =>
    "\n                            <div class=\"py-4 border-t border-slate-100 flex flex-wrap gap-2 mb-6\">\n                                <span class=\"text-sm font-medium text-slate-500\">标签:</span>\n                                "
    ++ (String.intercalate ", " (l.map tagLink))
    ++ "\n                            </div>\n                            "
  | none => ""

/-- The category span: rendered only when `post.category` is truthy. -/
def catSpan (cat : Option String) : String :=
  if jsStrTruthy cat then
    "<span><a href=\"/category/"
    ++ (cat.getD "")
    ++ "\" class=\"hover:text-sky-600 transition-colors\">"
    ++ (cat.getD "")
    ++ "</a></span>"
  else ""

/-- Prev-neighbour navigation link (or its placeholder). -/
def prevLink : Option Post → String
  | some q =>
    "<a href=\"/blog/"
    ++ (q.slug)
    ++ "\" class=\"text-sky-600 hover:underline flex items-center\">‹ 上一篇: "
    ++ (q.title)
    ++ "</a>"
  | none => "<span class=\"text-slate-400\">没有上一篇</span>"

/-- Next-neighbour navigation link (or its placeholder). -/
def nextLink : Option Post → String
  | some q =>
    "<a href=\"/blog/"
    ++ (q.slug)
    ++ "\" class=\"text-sky-600 hover:underline flex items-center\">下一篇: "
    ++ (q.title)
    ++ " ›</a>"
  | none => "<span class=\"text-slate-400\">没有下一篇</span>"

/-- The reply-to line of a comment, shown when `comment.reply_to` is truthy. -/
def replyToFrag (r : Option String) : String :=
  if jsStrTruthy r then
    "<p class=\"text-sm text-slate-500 mb-2\">回复 <strong>@"
    ++ (r.getD "")
    ++ "</strong></p>"
  else ""

/-- The HTML block of one approved comment. -/
def commentHtml (re : RenderEnv) (c : Comment) : String :=
  "\n        <div class=\"bg-slate-50 p-4 rounded-lg mb-4\">\n            <div class=\"flex justify-between items-center mb-2\">\n                <strong class=\"text-slate-900\">"
  ++ (c.author)
  ++ "</strong>\n                <span class=\"text-xs text-slate-500\">"
  ++ (re.toLocaleStr c.created_at)
  ++ "</span>\n            </div>\n            "
  ++ (replyToFrag c.reply_to)
  ++ "\n            <p class=\"text-slate-700\">"
  ++ (c.content)
  ++ "</p>\n            <div class=\"mt-2\">\n                <button class=\"reply-btn text-xs text-sky-600 hover:underline\" data-id=\""
  ++ (c.id)
  ++ "\" data-author=\""
  ++ (c.author)
  ++ "\">回复</button>\n            </div>\n        </div>\n    "

/-- The in-page client script (`clientScript`), a function of the post id
and the SVG constants only. -/
def clientScript (pid : String) : String :=
  "\n        document.addEventListener('DOMContentLoaded', async () => \x7b\n            const ICONS = \x7b\n                folder: `"
  ++ svgFolder
  ++ "`,\n                tag: `"
  ++ svgTag
  ++ "`,\n                link: `"
  ++ svgLink
  ++ "`\n            \x7d;\n\n            try \x7b\n                const response = await fetch('/api/sidebar-data');\n                if (!response.ok) throw new Error('Failed to fetch sidebar data');\n                const data = await response.json();\n                \n                const catList = document.getElementById('categories-list');\n                catList.innerHTML = '';\n                if (data.categories && data.categories.length > 0) \x7b\n                    data.categories.forEach(c => \x7b\n                        const li = document.createElement('li');\n                        li.innerHTML = `<a href=\"/category/$\x7bc.category\x7d\" class=\"flex items-center text-slate-600 hover:text-sky-600 transition-colors\">$\x7bICONS.folder\x7d $\x7bc.category\x7d <span class=\"ml-auto text-xs bg-slate-200 text-slate-600 px-2 py-1 rounded-full\">$\x7bc.count\x7d</span></a>`;\n                        catList.appendChild(li);\n                    \x7d);\n                \x7d else \x7b catList.innerHTML = '<li>暂无分类</li>'; \x7d\n\n                const tagList = document.getElementById('tags-list');\n                tagList.innerHTML = '';\n                if (data.tags && data.tags.length > 0) \x7b\n                    data.tags.forEach(t => \x7b\n                        const a = document.createElement('a');\n                        a.href = `/tags/$\x7bt.tag\x7d`;\n                        a.className = 'inline-flex items-center bg-slate-100 text-slate-700 px-3 py-1 rounded-full text-sm hover:bg-sky-100 hover:text-sky-800 transition-colors';\n                        a.innerHTML = `$\x7bICONS.tag\x7d $\x7bt.tag\x7d`;\n                        tagList.appendChild(a);\n                    \x7d);\n                \x7d else \x7b tagList.innerHTML = '<p>暂无标签</p>'; \x7d\n\n                const linkList = document.getElementById('links-list');\n                linkList.innerHTML = '';\n                if (data.links && data.links.length > 0) \x7b\n                    data.links.forEach(l => \x7b\n                        const li = document.createElement('li');\n                        li.innerHTML = `<a href=\"$\x7bl.url\x7d\" target=\"_blank\" rel=\"noopener noreferrer\" class=\"flex items-center text-slate-600 hover:text-sky-600 transition-colors\">$\x7bICONS.link\x7d $\x7bl.name\x7d</a>`;\n                        linkList.appendChild(li);\n                    \x7d);\n                \x7d else \x7b linkList.innerHTML = '<li>暂无链接</li>'; \x7d\n\n            \x7d catch (error) \x7b console.error('Failed to load sidebar data:', error); \x7d\n\n            // 文章阅读次数统计\n            const postId = '"
  ++ (pid)
  ++ "';\n            if (postId) \x7b\n                try \x7b\n                    // 异步更新阅读数，不阻塞页面加载\n                    fetch(`/api/posts/$\x7bpostId\x7d/views`).catch(err => console.error('Failed to update views:', err));\n                \x7d catch (e) \x7b\n                    console.error('Views update error:', e);\n                \x7d\n            \x7d\n\n            // 评论表单提交\n            const commentForm = document.getElementById('comment-form');\n            if (commentForm && postId) \x7b\n                commentForm.addEventListener('submit', async (e) => \x7b\n                    e.preventDefault();\n                    const submitBtn = commentForm.querySelector('button[type=\"submit\"]');\n                    const originalText = submitBtn.textContent;\n                    submitBtn.textContent = '提交中...';\n                    submitBtn.disabled = true;\n\n                    try \x7b\n                        const author = document.getElementById('comment-author').value.trim();\n                        const email = document.getElementById('comment-email').value.trim();\n                        const content = document.getElementById('comment-content').value.trim();\n                        const parentId = document.getElementById('comment-parent-id').value.trim();\n\n                        if (!author || !content) \x7b\n                            alert('请填写昵称和评论内容！');\n                            submitBtn.textContent = originalText;\n                            submitBtn.disabled = false;\n                            return;\n                        \x7d\n\n                        const response = await fetch(`/api/posts/$\x7bpostId\x7d/comments`, \x7b\n                            method: 'POST',\n                            headers: \x7b 'Content-Type': 'application/json' \x7d,\n                            body: JSON.stringify(\x7b author, email, content, parent_id: parentId || null \x7d)\n                        \x7d);\n\n                        const result = await response.json();\n                        if (!response.ok) \x7b\n                            throw new Error(result.error || '提交失败，请稍后再试');\n                        \x7d\n\n                        alert('评论提交成功！页面将刷新显示您的评论。');\n                        window.location.reload();\n                    \x7d catch (err) \x7b\n                        alert(`提交失败: $\x7berr.message\x7d`);\n                    \x7d finally \x7b\n                        submitBtn.textContent = originalText;\n                        submitBtn.disabled = false;\n                    \x7d\n                \x7d);\n\n                // 回复按钮功能\n                document.querySelectorAll('.reply-btn').forEach(btn => \x7b\n                    btn.addEventListener('click', () => \x7b\n                        const commentId = btn.dataset.id;\n                        const author = btn.dataset.author;\n                        document.getElementById('comment-parent-id').value = commentId;\n                        document.getElementById('reply-text').innerHTML = `正在回复 <strong>@$\x7bauthor\x7d</strong>`;\n                        document.getElementById('reply-notice').classList.remove('hidden');\n                        document.getElementById('comment-form').scrollIntoView(\x7b behavior: 'smooth' \x7d);\n                        document.getElementById('comment-content').focus();\n                    \x7d);\n                \x7d);\n\n                // 取消回复功能\n                document.getElementById('cancel-reply').addEventListener('click', () => \x7b\n                    document.getElementById('comment-parent-id').value = '';\n                    document.getElementById('reply-notice').classList.add('hidden');\n                \x7d);\n            \x7d\n        \x7d);\n    "

/-- `SELECT ... FROM comments WHERE post_id = ? AND is_approved = 1`. -/
def approvedComments (store : Store) (pid : String) : List Comment :=
  store.comments.filter (fun c => c.post_id = pid && c.is_approved)

/-- Insertion into a list sorted by `created_at`. -/
def insertByTime (c : Comment) : List Comment → List Comment
  | [] => [c]
  | d :: rest =>
    if d.created_at ≤ c.created_at then d :: insertByTime c rest else c :: d :: rest

/-- `ORDER BY created_at ASC` (a deterministic rendition of the store's
ordering). -/
def sortByCreatedAt : List Comment → List Comment
  | [] => []
  | c :: rest => insertByTime c (sortByCreatedAt rest)

/-- `generateAndStoreStaticPage`'s HTML output for one post: the complete
document stored as the post's blob.  `now` is the wall clock read by the
function (`new Date()`), entering only through the missing-`published_at`
fallback and the footer's copyright year. -/
def pageHtml (re : RenderEnv) (store : Store) (p : Post) (now : String) : String :=
  let bodyHtml := re.markedParse p.content
  let publishedAt := if p.published_at = "" then now else p.published_at
  let prevPost := prevPublished store.posts publishedAt
  let nextPost := nextPublished store.posts publishedAt
  let subtitle := jsOr (getSetting store "subtitle") "A modern blog built with Cloudflare."
  let blogTitle := jsOr (getSetting store "blog_title") "我的博客"
  let viewCount := viewCountOf store p.id
  let commentsCnt := (approvedComments store p.id).length
  let commentsHtml :=
    let s := String.join ((sortByCreatedAt (approvedComments store p.id)).map (commentHtml re))
    if s = "" then "<p class=\"text-slate-500 text-center\">暂无评论</p>" else s
  let clientScr := clientScript p.id
  ("\n    <!DOCTYPE html>\n    <html lang=\"zh-CN\" class=\"scroll-smooth\">\n    <head>\n        <meta charset=\"UTF-8\">\n        <meta name=\"viewport\" content=\"width=device-width, initial-scale=1.0\">\n        <meta name=\"google-site-verification\" content=\"fy8f3pZqV8ZImBK9RczHwy5FXOgKzJ5C-mg8Twzre6E\">\n        <title>"
  ++ (p.title)
  ++ " - "
  ++ blogTitle
  ++ "</title>\n        <link href=\"/assets/style.css\" rel=\"stylesheet\">\n        <link rel=\"stylesheet\" href=\"https://cdnjs.cloudflare.com/ajax/libs/highlight.js/11.7.0/styles/atom-one-dark.min.css\">\n    </head>\n    <body class=\"bg-slate-100 text-slate-800 font-sans\">\n        <div class=\"max-w-7xl mx-auto\">\n            <header \n                class=\"relative flex items-center justify-center text-center min-h-[10vh] md:min-h-[30vh] rounded-b-lg shadow-lg mb-8\"\n            style=\"\n                background-image: url('/assets/banner.jpg');\n                background-repeat: no-repeat;\n                background-size: contain;\n                background-attachment: fixed;\n            \"\n            >\n                <div class=\"absolute inset-0 bg-black opacity-50 rounded-b-lg\"></div>\n                <div class=\"relative text-center\">\n                    <h1 class=\"text-5xl font-extrabold tracking-tight drop-shadow-md\">\n                        <a href=\"/\" class=\"text-white hover:text-white\">"
  ++ blogTitle
  ++ "</a>\n                    </h1>\n                    <p class=\"mt-4 text-xl text-slate-200 drop-shadow-md\">"
  ++ subtitle
  ++ "</p>\n                </div>\n            </header>\n            \n            <div class=\"px-4 sm:px-6 lg:px-8\">\n                <nav class=\"my-6 bg-white p-3 rounded-lg shadow-md sticky top-2 z-10\">\n                    <ul class=\"flex justify-center space-x-2 md:space-x-4\">\n                        <li><a href=\"/\" class=\"px-3 py-2 text-slate-700 hover:bg-slate-200 rounded-md transition-colors\">首页</a></li>\n                        <li><a href=\"/#categories-widget\" class=\"px-3 py-2 text-slate-700 hover:bg-slate-200 rounded-md transition-colors\">分类</a></li>\n                        <li><a href=\"/#tags-widget\" class=\"px-3 py-2 text-slate-700 hover:bg-slate-200 rounded-md transition-colors\">标签</a></li>\n                        <li><a href=\"/#links-widget\" class=\"px-3 py-2 text-slate-700 hover:bg-slate-200 rounded-md transition-colors\">友链</a></li>\n                        <li><a href=\"/archive\" class=\"px-3 py-2 text-slate-700 hover:bg-slate-200 rounded-md transition-colors\">归档</a></li>\n                        <li><a href=\"/feed.xml\" target=\"_blank\" class=\"px-3 py-2 text-slate-700 hover:bg-slate-200 rounded-md transition-colors\">RSS订阅</a></li>\n                    </ul>\n                </nav>\n\n                <div class=\"grid grid-cols-1 lg:grid-cols-4 gap-8\">\n                    <main class=\"lg:col-span-3\">\n                        <!-- 文章 -->\n                        <article class=\"bg-white p-6 rounded-lg shadow-md hover:shadow-xl transition-shadow duration-300 ease-in-out\">\n                            <!-- 文章头部 -->\n                            <div class=\"mb-6 text-center\">\n                                <h1 class=\"text-3xl font-bold text-slate-900 mb-4\">"
  ++ (p.title)
  ++ "</h1>\n                                <div class=\"text-sm text-slate-500 mb-4 flex items-center justify-center space-x-4\">\n                                    <span>发布于: ")
  ++ ((re.toLocaleDateStr publishedAt)
  ++ ("</span>\n                                    <span>"
  ++ (toString viewCount)
  ++ " 阅读</span>\n                                    <span>"
  ++ (toString commentsCnt)
  ++ " 评论</span>\n                                    "
  ++ (catSpan p.category)
  ++ "\n                                </div>\n                            </div>\n\n                            <!-- 文章内容 -->\n                            <div class=\"post-content prose prose-slate max-w-none mb-6\">\n                                "
  ++ bodyHtml
  ++ "\n                            </div>\n\n                            <!-- 标签 -->\n                            "
  ++ (tagsBlock p.tags)
  ++ "\n\n                            <!-- 上下篇导航 -->\n                            <div class=\"py-4 border-t border-slate-100 flex justify-between\">\n                                "
  ++ (prevLink prevPost)
  ++ "\n                                "
  ++ (nextLink nextPost)
  ++ "\n                            </div>\n                        </article>\n\n                        <!-- 评论区 -->\n                        <div class=\"mt-8 bg-white p-6 rounded-lg shadow-md\">\n                            <h2 class=\"text-2xl font-bold text-slate-900 mb-6\">评论 ("
  ++ (toString commentsCnt)
  ++ ")</h2>\n\n                            <!-- 评论列表 -->\n                            <div id=\"comments-list\" class=\"space-y-4 mb-8\">\n                                "
  ++ commentsHtml
  ++ "\n                            </div>\n\n                            <!-- 评论表单 -->\n                            <form id=\"comment-form\" class=\"mt-8\">\n                                <input type=\"hidden\" id=\"comment-parent-id\" value=\"\">\n                                <div id=\"reply-notice\" class=\"hidden mb-4 p-3 bg-sky-50 border-l-4 border-sky-500\">\n                                    <div class=\"flex justify-between items-center\">\n                                        <div id=\"reply-text\"></div>\n                                        <button type=\"button\" id=\"cancel-reply\" class=\"text-sm text-sky-600 hover:underline\">取消回复</button>\n                                    </div>\n                                </div>\n\n                                <div class=\"grid grid-cols-1 md:grid-cols-2 gap-4 mb-4\">\n                                    <div>\n                                        <label for=\"comment-author\" class=\"block text-sm font-medium text-slate-700 mb-1\">昵称 *</label>\n                                        <input type=\"text\" id=\"comment-author\" class=\"w-full px-3 py-2 border border-slate-300 rounded-md focus:outline-none focus:ring-2 focus:ring-sky-500 focus:border-transparent\" required>\n                                    </div>\n                                    <div>\n                                        <label for=\"comment-email\" class=\"block text-sm font-medium text-slate-700 mb-1\">邮箱 (选填)</label>\n                                        <input type=\"email\" id=\"comment-email\" class=\"w-full px-3 py-2 border border-slate-300 rounded-md focus:outline-none focus:ring-2 focus:ring-sky-500 focus:border-transparent\">\n                                    </div>\n                                </div>\n\n                                <div class=\"mb-4\">\n                                    <label for=\"comment-content\" class=\"block text-sm font-medium text-slate-700 mb-1\">评论内容 *</label>\n                                    <textarea id=\"comment-content\" rows=\"4\" class=\"w-full px-3 py-2 border border-slate-300 rounded-md focus:outline-none focus:ring-2 focus:ring-sky-500 focus:border-transparent\" required></textarea>\n                                </div>\n\n                                <button type=\"submit\" class=\"px-4 py-2 bg-sky-500 text-white font-semibold rounded-lg hover:bg-sky-600 transition-transform duration-300 hover:scale-105\">提交评论</button>\n                            </form>\n                        </div>\n                    </main>\n                    <aside class=\"sidebar space-y-8\">\n                        <div class=\"bg-white p-5 rounded-lg shadow-md\">\n                            <h3 class=\"font-bold text-lg mb-4 border-b pb-2\">站内搜索</h3>\n                            <form action=\"/search\" method=\"get\">\n                                <input type=\"search\" name=\"q\" placeholder=\"搜索文章...\" class=\"w-full border-slate-300 rounded-md focus:ring-sky-500 focus:border-sky-500\">\n                            </form>\n                        </div>\n                        <div id=\"categories-widget\" class=\"bg-white p-5 rounded-lg shadow-md\">\n                            <h3 class=\"font-bold text-lg mb-4 border-b pb-2\">分类</h3>\n                            <ul id=\"categories-list\" class=\"space-y-2\"><li>加载中...</li></ul>\n                        </div>\n                        <div id=\"tags-widget\" class=\"bg-white p-5 rounded-lg shadow-md\">\n                            <h3 class=\"font-bold text-lg mb-4 border-b pb-2\">标签</h3>\n                            <div id=\"tags-list\" class=\"flex flex-wrap gap-2\">加载中...</div>\n                        </div>\n                        <div id=\"links-widget\" class=\"bg-white p-5 rounded-lg shadow-md\">\n                            <h3 class=\"font-bold text-lg mb-4 border-b pb-2\">友情链接</h3>\n                            <ul id=\"links-list\" class=\"space-y-2\"><li>加载中...</li></ul>\n                        </div>\n                    </aside>\n                </div>\n            </div>\n            <footer class=\"text-center py-8 text-slate-500 mt-8\">\n                <p>&copy; "
  ++ (yearOf now)
  ++ " "
  ++ blogTitle
  ++ ". <a href=\"/sitemap.xml\" class=\"text-sky-500 hover:underline ml-2\">站点地图.&nbsp;</a>访问我的<a href=\"https://github.com/qyidc\" class=\"text-sky-500 hover:underline\">Github</a></p>\n            </footer>\n        </div>\n        \n        <script>"
  ++ clientScr
  ++ "</script>\n        <script src=\"https://cdnjs.cloudflare.com/ajax/libs/highlight.js/11.7.0/highlight.min.js\"></script>\n        <script>(function() \x7b function initCodeFeatures() \x7b if (!window.hljs) return setTimeout(initCodeFeatures, 50); const codeBlocks = document.querySelectorAll('.post-content pre code'); codeBlocks.forEach(block => \x7b try \x7b hljs.highlightElement(block); \x7d catch(e) \x7b\x7d \x7d); setTimeout(() => \x7b codeBlocks.forEach(block => \x7b try \x7b const pre = block.parentElement; if (!pre || pre.querySelector('.code-header')) return; const header = document.createElement('div'); header.className = 'code-header'; header.style.cssText = 'display: flex !important; justify-content: space-between; align-items: center; padding: 0.75rem 1rem; background: #2d2d2d !important; border-bottom: 1px solid #444;'; let lang = 'CODE'; const match = block.className.match(/language-(w+)/); if (match && match[1]) \x7b lang = match[1].toUpperCase(); \x7d const langSpan = document.createElement('span'); langSpan.style.cssText = 'color: #a5ff90 !important; font-size: 0.85rem; font-weight: 600; font-family: ui-monospace, SFMono-Regular, Menlo, Monaco, Consolas;'; langSpan.textContent = lang; const copyBtn = document.createElement('button'); copyBtn.style.cssText = 'background: #444 !important; color: white !important; border: none; border-radius: 0.25rem; padding: 0.25rem 0.75rem; font-size: 0.8rem; cursor: pointer; transition: background 0.2s;'; copyBtn.textContent = '复制'; copyBtn.onmouseover = () => copyBtn.style.background = '#555 !important'; copyBtn.onmouseout = () => copyBtn.style.background = '#444 !important'; copyBtn.onclick = async () => \x7b try \x7b await navigator.clipboard.writeText(block.textContent || ''); copyBtn.textContent = '已复制！'; setTimeout(() => copyBtn.textContent = '复制', 2000); \x7d catch(e) \x7b copyBtn.textContent = '复制失败'; setTimeout(() => copyBtn.textContent = '复制', 2000); \x7d \x7d; header.appendChild(langSpan); header.appendChild(copyBtn); pre.insertBefore(header, block); \x7d catch(e) \x7b\x7d \x7d); \x7d, 100); \x7d initCodeFeatures(); \x7d)();</script>\n        <script defer src=\"https://static.cloudflareinsights.com/beacon.min.js/v67327c56f0bb4ef8b305cae61679db8f1769101564043\" integrity=\"sha512-rdcWY47ByXd76cbCFzznIcEaCN71jqkWBBqlwhF1SY7KubdLKZiEGeP7AyieKZlGP9hbY/MhGrwXzJC/HulNyg==\" data-cf-beacon='\x7b\"version\":\"2024.11.0\",\"token\":\"e6e7eaef3a72433391ea5c2bc637eb63\",\"r\":1,\"server_timing\":\x7b\"name\":\x7b\"cfCacheStatus\":true,\"cfEdge\":true,\"cfExtPri\":true,\"cfL4\":true,\"cfOrigin\":true,\"cfSpeedBrain\":true\x7d,\"location_startswith\":null\x7d\x7d' crossorigin=\"anonymous\"></script>\n    </body>\n    </html>"))

/-- The blobs stored by `/rebuild-all`: one `(slug, html)` pair per
published post with a truthy slug. -/
def rebuildAll (re : RenderEnv) (store : Store) (now : String) : List (String × String) :=
  (rebuildPosts store.posts).map (fun p => (p.slug, pageHtml re store p now))

/-! ## Reachable states (for the slug-uniqueness invariant) -/

/-- Post-table states reachable from the empty table by create and update
requests.  `crypto.randomUUID` freshness is the hypothesis of the create
step. -/
inductive Reachable : List Post → Prop where
  | empty : Reachable []
  | create {s s' regens : List Post} {input : CreateInput} {newId now : String} :
      Reachable s → (∀ q ∈ s, q.id ≠ newId) →
      createPost s input newId now = some (s', regens) → Reachable s'
  | update {s s' regens : List Post} {pid : String} {b : UpdateInput} :
      Reachable s → putPost s pid b = some (s', regens) → Reachable s'

/-! ## Concrete fixtures used by counterexamples and witnesses -/

/-- A published, non-draft post at timestamp `2020`. -/
def postA : Post :=
  ⟨"a", "A", "a", "", none, none, none, "2020-01-01T00:00:00.000Z", true, false, false⟩

/-- An *unpublished* post at timestamp `2021`, sitting between `postA` and
`postP` in publish order. -/
def postU : Post :=
  ⟨"u", "U", "u", "", none, none, none, "2021-01-01T00:00:00.000Z", false, false, false⟩

/-- A published, non-draft post at timestamp `2022`. -/
def postP : Post :=
  ⟨"p", "P", "p", "", none, none, none, "2022-01-01T00:00:00.000Z", true, false, false⟩

/-- Fixture table: published `postA`, unpublished `postU`, published `postP`. -/
def fixtureAUP : List Post := [postA, postU, postP]

/-- A post that is published (`is_published = true`) yet flagged as a draft
(`is_draft = 1`), at timestamp `2021`. -/
def postD : Post :=
  ⟨"d", "D", "d", "", none, none, none, "2021-01-01T00:00:00.000Z", true, true, false⟩

/-- A published, non-draft post at timestamp `2022`. -/
def postQ : Post :=
  ⟨"q", "Q", "q", "", none, none, none, "2022-01-01T00:00:00.000Z", true, false, false⟩

/-- Fixture table: a published draft followed by a published non-draft. -/
def fixtureDQ : List Post := [postD, postQ]

/-- A published post whose `published_at` is empty (SQL `NULL`) — reachable
via a PUT body carrying `published_at: null` — forcing the renderer's
`post.published_at || new Date().toISOString()` fallback. -/
def c9Post : Post := ⟨"p1", "T", "t", "", none, none, none, "", true, false, false⟩

/-- A published post at timestamp `2026-03-01`, between the two rebuild
instants used in the idempotence counterexample. -/
def c9Post2 : Post :=
  ⟨"p2", "U", "u", "", none, none, none, "2026-03-01T00:00:00.000Z", true, false, false⟩

/-- Store for the rebuild-idempotence claim. -/
def c9Store : Store := ⟨[c9Post, c9Post2], [], [], [], []⟩

/-- A concrete render environment: Markdown conversion and date formatting
instantiated with identity-like pure functions. -/
def idEnv : RenderEnv := ⟨id, id, (fun i => toString i)⟩

/-- Store for the rate-limit witness: three comments from one IP at time 0. -/
def c8Comment (n : String) : Comment :=
  ⟨n, "pc", "alice", none, "hi", "9.9.9.9", 0, false, none, none⟩

/-- The post receiving the witness comments. -/
def c8Post : Post :=
  ⟨"pc", "C", "c", "", none, none, none, "2020-01-01T00:00:00.000Z", true, false, false⟩

/-- Rate-limit witness store. -/
def c8Store : Store :=
  ⟨[c8Post], [c8Comment "c1", c8Comment "c2", c8Comment "c3"], [], [], []⟩

/-- Store whose every post carries a timestamp — the well-formed case of
the rebuild-idempotence claim. -/
def c9GoodStore : Store := ⟨[c9Post2], [], [], [], []⟩

/-- Create-handler input for the create-cascade witness. -/
def c4Input : CreateInput := { title := "New" }

/-- A blacklist entry for `9.9.9.9` that expired at time `1000`. -/
def c10Entry : BlacklistEntry := ⟨"b1", "9.9.9.9", some "spam", some 1000⟩

/-- Blacklist witness store: same as the rate-limit store plus the expired
entry. -/
def c10Store : Store :=
  ⟨[c8Post], [], [c10Entry], [], []⟩

/-- A freshly-created post used by the slug-uniqueness witness: the result
of `createPost [] \x7b title := "Hello" \x7d "i1" …`. -/
def c5Input : CreateInput := { title := "Hello" }

/-- The row `createPost` inserts for `c5Input` (slug `"hello"`). -/
def c5Post : Post :=
  ⟨"i1", "Hello", "hello", "", some "Uncategorized", some [], some "/assets/banner.jpg",
   "2020-01-01T00:00:00.000Z", true, false, false⟩

/-- A retitle-only PUT body. -/
def c5Update : UpdateInput := { title := some "World" }

/-! ## General lemmas -/

theorem string_append_cancel_left_eq (a b c : String) : (a ++ b = a ++ c) = (b = c) := by
  refine propext ⟨fun h => ?_, fun h => by rw [h]⟩
  have hd := congrArg String.data h
  rw [String.data_append, String.data_append] at hd
  exact String.ext (List.append_cancel_left hd)

theorem string_append_inj_left {a b c d : String} (h : a ++ b = c ++ d)
    (hl : a.data.length = c.data.length) : a = c := by
  have hd := congrArg String.data h
  rw [String.data_append, String.data_append] at hd
  exact String.ext (List.append_inj_left hd hl)

theorem charListLt_irrefl (l : List Char) : charListLt l l = false := by
  induction l with
  | nil => rfl
  | cons a as ih => simp [charListLt, ih]

theorem charListLt_trans {l1 l2 l3 : List Char} (h1 : charListLt l1 l2 = true)
    (h2 : charListLt l2 l3 = true) : charListLt l1 l3 = true := by
  induction l1 generalizing l2 l3 with
  | nil =>
    cases l3 with
    | nil =>
      cases l2 with
      | nil => exact h2
      | cons b bs => simp [charListLt] at h2
    | cons c cs => rfl
  | cons a as ih =>
    cases l2 with
    | nil => simp [charListLt] at h1
    | cons b bs =>
      cases l3 with
      | nil => simp [charListLt] at h2
      | cons c cs =>
        rw [charListLt] at h1 h2 ⊢
        by_cases hab : a.toNat < b.toNat
        · by_cases hbc : b.toNat < c.toNat
          · simp [show a.toNat < c.toNat from lt_trans hab hbc]
          · by_cases hcb : c.toNat < b.toNat
            · simp [hbc, hcb] at h2
            · have : a.toNat < c.toNat := by omega
              simp [this]
        · by_cases hba : b.toNat < a.toNat
          · simp [hab, hba] at h1
          · simp [hab, hba] at h1
            by_cases hbc : b.toNat < c.toNat
            · have : a.toNat < c.toNat := by omega
              simp [this]
            · by_cases hcb : c.toNat < b.toNat
              · simp [hbc, hcb] at h2
              · simp [hbc, hcb] at h2
                have h3 : ¬ a.toNat < c.toNat := by omega
                have h4 : ¬ c.toNat < a.toNat := by omega
                simp [h3, h4]
                exact ih h1 h2

theorem charListLt_of_lt_of_nlt {l1 l2 l3 : List Char} (h1 : charListLt l1 l2 = true)
    (h2 : charListLt l3 l2 = false) : charListLt l1 l3 = true := by
  induction l1 generalizing l2 l3 with
  | nil =>
    cases l2 with
    | nil => simp [charListLt] at h1
    | cons b bs =>
      cases l3 with
      | nil => simp [charListLt] at h2
      | cons c cs => rfl
  | cons a as ih =>
    cases l2 with
    | nil => simp [charListLt] at h1
    | cons b bs =>
      cases l3 with
      | nil => simp [charListLt] at h2
      | cons c cs =>
        rw [charListLt] at h1 h2 ⊢
        by_cases hcb : c.toNat < b.toNat
        · simp [hcb] at h2
        · by_cases hbc : b.toNat < c.toNat
          · by_cases hab : a.toNat < b.toNat
            · have : a.toNat < c.toNat := lt_trans hab hbc
              simp [this]
            · by_cases hba : b.toNat < a.toNat
              · simp [hab, hba] at h1
              · have : a.toNat < c.toNat := by omega
                simp [this]
          · have hbceq : b.toNat = c.toNat := by omega
            simp [hbc, hcb] at h2
            by_cases hab : a.toNat < b.toNat
            · have : a.toNat < c.toNat := by omega
              simp [this]
            · by_cases hba : b.toNat < a.toNat
              · simp [hab, hba] at h1
              · simp [hab, hba] at h1
                have h3 : ¬ a.toNat < c.toNat := by omega
                have h4 : ¬ c.toNat < a.toNat := by omega
                simp [h3, h4]
                exact ih h1 h2

theorem tsLt_irrefl (a : String) : tsLt a a = false := charListLt_irrefl a.data

theorem tsLt_trans {a b c : String} (h1 : tsLt a b = true) (h2 : tsLt b c = true) :
    tsLt a c = true := charListLt_trans h1 h2

theorem tsLt_asymm {a b : String} (h : tsLt a b = true) : tsLt b a = false := by
  by_contra hc
  rw [Bool.not_eq_false] at hc
  have := tsLt_trans h hc
  rw [tsLt_irrefl] at this
  exact absurd this (by simp)

theorem tsLe_refl (a : String) : tsLe a a = true := by
  rw [tsLe, tsLt_irrefl]; rfl

theorem tsLe_of_lt {a b : String} (h : tsLt a b = true) : tsLe a b = true := by
  rw [tsLe, tsLt_asymm h]; rfl

theorem tsLe_of_not_lt {a b : String} (h : tsLt b a = false) : tsLe a b = true := by
  rw [tsLe, h]; rfl

theorem tsLe_trans {a b c : String} (h1 : tsLe a b = true) (h2 : tsLe b c = true) :
    tsLe a c = true := by
  rw [tsLe, Bool.not_eq_true'] at h1 h2 ⊢
  by_contra hc
  rw [Bool.not_eq_false] at hc
  have h3 : tsLt c b = true := charListLt_of_lt_of_nlt hc h1
  rw [h3] at h2
  exact absurd h2 (by simp)

theorem tsLt_of_lt_of_le {a b c : String} (h1 : tsLt a b = true) (h2 : tsLe b c = true) :
    tsLt a c = true := by
  rw [tsLe, Bool.not_eq_true'] at h2
  exact charListLt_of_lt_of_nlt h1 h2

theorem maxScan_mem (key : Post → String) (b : Post) (l : List Post) :
    maxScan key b l ∈ b :: l := by
  induction l generalizing b with
  | nil => simp [maxScan]
  | cons q rest ih =>
    have h := ih (if tsLt (key b) (key q) then q else b)
    rw [maxScan]
    rcases List.mem_cons.1 h with h1 | h1
    · rw [h1]
      split <;> simp
    · exact List.mem_cons_of_mem _ (List.mem_cons_of_mem _ h1)

theorem maxScan_ge (key : Post → String) (b : Post) (l : List Post) :
    ∀ r ∈ b :: l, tsLe (key r) (key (maxScan key b l)) = true := by
  induction l generalizing b with
  | nil =>
    intro r hr
    simp only [List.mem_singleton] at hr
    rw [hr, maxScan]
    exact tsLe_refl _
  | cons q rest ih =>
    intro r hr
    rw [maxScan]
    have hb := ih (if tsLt (key b) (key q) then q else b) _ (List.mem_cons_self _ _)
    rcases List.mem_cons.1 hr with rfl | hr2
    · refine tsLe_trans ?_ hb
      split
      · exact tsLe_of_lt (by assumption)
      · exact tsLe_refl _
    · rcases List.mem_cons.1 hr2 with rfl | hr3
      · refine tsLe_trans ?_ hb
        split
        · exact tsLe_refl _
        · exact tsLe_of_not_lt (by simp_all)
      · exact ih _ r (List.mem_cons_of_mem _ hr3)

theorem minScan_mem (key : Post → String) (b : Post) (l : List Post) :
    minScan key b l ∈ b :: l := by
  induction l generalizing b with
  | nil => simp [minScan]
  | cons q rest ih =>
    have h := ih (if tsLt (key q) (key b) then q else b)
    rw [minScan]
    rcases List.mem_cons.1 h with h1 | h1
    · rw [h1]
      split <;> simp
    · exact List.mem_cons_of_mem _ (List.mem_cons_of_mem _ h1)

theorem minScan_le (key : Post → String) (b : Post) (l : List Post) :
    ∀ r ∈ b :: l, tsLe (key (minScan key b l)) (key r) = true := by
  induction l generalizing b with
  | nil =>
    intro r hr
    simp only [List.mem_singleton] at hr
    rw [hr, minScan]
    exact tsLe_refl _
  | cons q rest ih =>
    intro r hr
    rw [minScan]
    have hb := ih (if tsLt (key q) (key b) then q else b) _ (List.mem_cons_self _ _)
    rcases List.mem_cons.1 hr with rfl | hr2
    · refine tsLe_trans hb ?_
      split
      · exact tsLe_of_lt (by assumption)
      · exact tsLe_refl _
    · rcases List.mem_cons.1 hr2 with rfl | hr3
      · refine tsLe_trans hb ?_
        split
        · exact tsLe_refl _
        · exact tsLe_of_not_lt (by simp_all)
      · exact ih _ r (List.mem_cons_of_mem _ hr3)

theorem firstMaxBy_eq_some {key : Post → String} {l : List Post} {q : Post}
    (h : firstMaxBy key l = some q) : q ∈ l ∧ ∀ r ∈ l, tsLe (key r) (key q) = true := by
  cases l with
  | nil => simp [firstMaxBy] at h
  | cons b rest =>
    rw [firstMaxBy, Option.some.injEq] at h
    subst h
    exact ⟨maxScan_mem key b rest, maxScan_ge key b rest⟩

theorem firstMaxBy_eq_none {key : Post → String} {l : List Post}
    (h : firstMaxBy key l = none) : l = [] := by
  cases l with
  | nil => rfl
  | cons b rest => simp [firstMaxBy] at h

theorem firstMinBy_eq_some {key : Post → String} {l : List Post} {q : Post}
    (h : firstMinBy key l = some q) : q ∈ l ∧ ∀ r ∈ l, tsLe (key q) (key r) = true := by
  cases l with
  | nil => simp [firstMinBy] at h
  | cons b rest =>
    rw [firstMinBy, Option.some.injEq] at h
    subst h
    exact ⟨minScan_mem key b rest, minScan_le key b rest⟩

theorem firstMinBy_eq_none {key : Post → String} {l : List Post}
    (h : firstMinBy key l = none) : l = [] := by
  cases l with
  | nil => rfl
  | cons b rest => simp [firstMinBy] at h

theorem prevPublished_eq_some {posts : List Post} {t : String} {q : Post}
    (h : prevPublished posts t = some q) :
    q ∈ posts ∧ q.is_published = true ∧ tsLt q.published_at t = true ∧
      ∀ r ∈ posts, r.is_published = true → tsLt r.published_at t = true →
        tsLe r.published_at q.published_at = true := by
  obtain ⟨hmem, hmax⟩ := firstMaxBy_eq_some h
  rw [List.mem_filter, Bool.and_eq_true] at hmem
  refine ⟨hmem.1, hmem.2.1, hmem.2.2, fun r hr hrp hrt => ?_⟩
  exact hmax r (List.mem_filter.2 ⟨hr, by rw [Bool.and_eq_true]; exact ⟨hrp, hrt⟩⟩)

theorem prevPublished_eq_none {posts : List Post} {t : String}
    (h : prevPublished posts t = none) :
    ∀ r ∈ posts, r.is_published = true → tsLt r.published_at t = false := by
  intro r hr hrp
  by_contra hc
  rw [Bool.not_eq_false] at hc
  have hnil := firstMaxBy_eq_none h
  have hmem : r ∈ (posts.filter (fun q => q.is_published && tsLt q.published_at t)) :=
    List.mem_filter.2 ⟨hr, by rw [Bool.and_eq_true]; exact ⟨hrp, hc⟩⟩
  rw [hnil] at hmem
  exact List.not_mem_nil r hmem

theorem nextPublished_eq_some {posts : List Post} {t : String} {q : Post}
    (h : nextPublished posts t = some q) :
    q ∈ posts ∧ q.is_published = true ∧ tsLt t q.published_at = true ∧
      ∀ r ∈ posts, r.is_published = true → tsLt t r.published_at = true →
        tsLe q.published_at r.published_at = true := by
  obtain ⟨hmem, hmin⟩ := firstMinBy_eq_some h
  rw [List.mem_filter, Bool.and_eq_true] at hmem
  refine ⟨hmem.1, hmem.2.1, hmem.2.2, fun r hr hrp hrt => ?_⟩
  exact hmin r (List.mem_filter.2 ⟨hr, by rw [Bool.and_eq_true]; exact ⟨hrp, hrt⟩⟩)

theorem nextPublished_eq_none {posts : List Post} {t : String}
    (h : nextPublished posts t = none) :
    ∀ r ∈ posts, r.is_published = true → tsLt t r.published_at = false := by
  intro r hr hrp
  by_contra hc
  rw [Bool.not_eq_false] at hc
  have hnil := firstMinBy_eq_none h
  have hmem : r ∈ (posts.filter (fun q => q.is_published && tsLt t q.published_at)) :=
    List.mem_filter.2 ⟨hr, by rw [Bool.and_eq_true]; exact ⟨hrp, hc⟩⟩
  rw [hnil] at hmem
  exact List.not_mem_nil r hmem

theorem prevAny_eq_some {posts : List Post} {t : String} {q : Post}
    (h : prevAny posts t = some q) :
    q ∈ posts ∧ tsLt q.published_at t = true ∧
      ∀ r ∈ posts, tsLt r.published_at t = true →
        tsLe r.published_at q.published_at = true := by
  obtain ⟨hmem, hmax⟩ := firstMaxBy_eq_some h
  rw [List.mem_filter] at hmem
  refine ⟨hmem.1, hmem.2, fun r hr hrt => ?_⟩
  exact hmax r (List.mem_filter.2 ⟨hr, hrt⟩)

theorem prevAny_eq_none {posts : List Post} {t : String}
    (h : prevAny posts t = none) : ∀ r ∈ posts, tsLt r.published_at t = false := by
  intro r hr
  by_contra hc
  rw [Bool.not_eq_false] at hc
  have hnil := firstMaxBy_eq_none h
  have hmem : r ∈ (posts.filter (fun q => tsLt q.published_at t)) :=
    List.mem_filter.2 ⟨hr, hc⟩
  rw [hnil] at hmem
  exact List.not_mem_nil r hmem

theorem nextAny_eq_some {posts : List Post} {t : String} {q : Post}
    (h : nextAny posts t = some q) :
    q ∈ posts ∧ tsLt t q.published_at = true ∧
      ∀ r ∈ posts, tsLt t r.published_at = true →
        tsLe q.published_at r.published_at = true := by
  obtain ⟨hmem, hmin⟩ := firstMinBy_eq_some h
  rw [List.mem_filter] at hmem
  refine ⟨hmem.1, hmem.2, fun r hr hrt => ?_⟩
  exact hmin r (List.mem_filter.2 ⟨hr, hrt⟩)

theorem nextAny_eq_none {posts : List Post} {t : String}
    (h : nextAny posts t = none) : ∀ r ∈ posts, tsLt t r.published_at = false := by
  intro r hr
  by_contra hc
  rw [Bool.not_eq_false] at hc
  have hnil := firstMinBy_eq_none h
  have hmem : r ∈ (posts.filter (fun q => tsLt t q.published_at)) :=
    List.mem_filter.2 ⟨hr, hc⟩
  rw [hnil] at hmem
  exact List.not_mem_nil r hmem


theorem consPrevPublished_cases (posts' : List Post) (np : Post) (now : String) :
    (np :: (prevPublished posts' now).toList = [np] ∧
       ∀ r ∈ posts', r.is_published = true → tsLt r.published_at now = false) ∨
    (∃ q, np :: (prevPublished posts' now).toList = [np, q] ∧ q ∈ posts' ∧
       q.is_published = true ∧ tsLt q.published_at now = true ∧
       ∀ r ∈ posts', r.is_published = true → tsLt r.published_at now = true →
         tsLe r.published_at q.published_at = true) := by
  cases hq : prevPublished posts' now with
  | none => exact Or.inl ⟨rfl, prevPublished_eq_none hq⟩
  | some q =>
    obtain ⟨hmem, hpub, hlt, hmax⟩ := prevPublished_eq_some hq
    exact Or.inr ⟨q, rfl, hmem, hpub, hlt, hmax⟩

/-! ## Claims -/

/-- **C2** (amended): for every post page rendered, the prev neighbour is a
*published* post (regardless of its draft flag) with the greatest publish
timestamp strictly below the page's, and the next neighbour a published
post with the smallest timestamp strictly above; unpublished posts are
never selected.  (The claim's additional "non-draft" condition fails — see
the counterexample.) -/
theorem claim_C2_amended (posts : List Post) (t : String) :
    (∀ q, prevPublished posts t = some q →
        q ∈ posts ∧ q.is_published = true ∧ tsLt q.published_at t = true ∧
          ∀ r ∈ posts, r.is_published = true → tsLt r.published_at t = true →
            tsLe r.published_at q.published_at = true) ∧
    (prevPublished posts t = none →
        ∀ r ∈ posts, r.is_published = true → tsLt r.published_at t = false) ∧
    (∀ q, nextPublished posts t = some q →
        q ∈ posts ∧ q.is_published = true ∧ tsLt t q.published_at = true ∧
          ∀ r ∈ posts, r.is_published = true → tsLt t r.published_at = true →
            tsLe q.published_at r.published_at = true) ∧
    (nextPublished posts t = none →
        ∀ r ∈ posts, r.is_published = true → tsLt t r.published_at = false) :=
  ⟨fun _ h => prevPublished_eq_some h, fun h => prevPublished_eq_none h,
   fun _ h => nextPublished_eq_some h, fun h => nextPublished_eq_none h⟩

/-- **C2** fails as stated: rendering the page at `postQ`'s timestamp
selects the *draft* (but published) `postD` as prev neighbour, while the
spec's published-and-non-draft neighbour is `none`. -/
theorem claim_C2_counterexample :
    prevPublished fixtureDQ postQ.published_at = some postD ∧
    postD.is_draft = true ∧
    prevPublished fixtureDQ postQ.published_at ≠
      specPrevNeighbor fixtureDQ postQ.published_at := by
  refine ⟨by decide, by decide, by decide⟩

/-- Witness for `claim_C2_amended` at a concrete store. -/
theorem claim_C2_witness :
    prevPublished fixtureDQ postQ.published_at = some postD ∧ postD ∈ fixtureDQ ∧
    postD.is_published = true ∧ tsLt postD.published_at postQ.published_at = true := by
  have h := (claim_C2_amended fixtureDQ postQ.published_at).1 postD (by decide)
  exact ⟨by decide, h.1, h.2.1, h.2.2.1⟩

/-- **C7** (amended): `/rebuild-all` regenerates the page of every
*published* post with a truthy slug — regardless of the draft flag — and
regenerates no unpublished post's page.  (The claim's draft exclusion
fails — see the counterexample.) -/
theorem claim_C7_amended (posts : List Post) :
    (∀ p ∈ posts, p.is_published = true → p.slug ≠ "" → p.slug ∈ rebuildTargets posts) ∧
    (∀ s ∈ rebuildTargets posts, ∃ p, p ∈ posts ∧ p.is_published = true ∧ p.slug = s) := by
  constructor
  · intro p hp hpub hslug
    exact List.mem_map_of_mem _ (List.mem_filter.2 ⟨hp, by simp [hpub, hslug]⟩)
  · intro s hs
    obtain ⟨p, hp, rfl⟩ := List.mem_map.1 hs
    have h := List.mem_filter.1 hp
    have h2 := h.2
    rw [Bool.and_eq_true] at h2
    exact ⟨p, h.1, h2.1, rfl⟩

/-- **C7** fails as stated: the published draft `postD` *is* regenerated by
`/rebuild-all` (`WHERE is_published = true` never consults `is_draft`), so
the rebuilt set differs from the published-and-non-draft set. -/
theorem claim_C7_counterexample :
    rebuildTargets fixtureDQ = ["d", "q"] ∧ postD.is_draft = true ∧
    postD.is_published = true ∧
    (fixtureDQ.filter (fun p => p.is_published && !p.is_draft)).map (·.slug) = ["q"] ∧
    rebuildTargets fixtureDQ ≠
      (fixtureDQ.filter (fun p => p.is_published && !p.is_draft)).map (·.slug) := by
  refine ⟨by decide, by decide, by decide, by decide, by decide⟩

/-- Witness for `claim_C7_amended` at a concrete store. -/
theorem claim_C7_witness : postQ.slug ∈ rebuildTargets fixtureDQ :=
  (claim_C7_amended fixtureDQ).1 postQ (by decide) (by decide) (by decide)

/-- `pageHtml` reads the wall clock only through the missing-timestamp
fallback and the footer year. -/
theorem pageHtml_now_inv (re : RenderEnv) (store : Store) (p : Post) (n1 n2 : String)
    (h : p.published_at ≠ "") (hy : yearOf n1 = yearOf n2) :
    pageHtml re store p n1 = pageHtml re store p n2 := by
  simp only [pageHtml, if_neg h, hy]

/-- **C9** (amended): when every post of the store has a non-empty publish
timestamp, two full rebuilds with no intervening store mutation and equal
copyright years store byte-identical blobs — page generation is then a
function of the store state and the year alone.  (Without that proviso the
claim fails: the renderer falls back to the current instant for a missing
`published_at`; see the counterexample.) -/
theorem claim_C9_amended (re : RenderEnv) (store : Store) (n1 n2 : String)
    (hy : yearOf n1 = yearOf n2) (h : ∀ p ∈ store.posts, p.published_at ≠ "") :
    rebuildAll re store n1 = rebuildAll re store n2 := by
  unfold rebuildAll
  refine List.map_congr_left (fun q hq => ?_)
  have hmem : q ∈ store.posts := List.mem_of_mem_filter hq
  rw [pageHtml_now_inv re store q n1 n2 (h q hmem) hy]

/-- Witness for `claim_C9_amended` at a concrete store. -/
theorem claim_C9_witness :
    rebuildAll idEnv c9GoodStore "2026-01-01T00:00:00.000Z" =
      rebuildAll idEnv c9GoodStore "2026-06-01T00:00:00.000Z" :=
  claim_C9_amended idEnv c9GoodStore _ _ rfl (by decide)

/-- **C9** fails as stated: `c9Store` holds a published post with an empty
`published_at`, so two rebuilds within the same calendar year at different
instants store different bytes (the rendered publish date — and the
neighbour computation — use the wall clock). -/
theorem claim_C9_counterexample :
    yearOf "2026-01-01T00:00:00.000Z" = yearOf "2026-06-01T00:00:00.000Z" ∧
    rebuildAll idEnv c9Store "2026-01-01T00:00:00.000Z" ≠
      rebuildAll idEnv c9Store "2026-06-01T00:00:00.000Z" := by
  refine ⟨rfl, fun h => ?_⟩
  have hrp : rebuildPosts c9Store.posts = [c9Post, c9Post2] := rfl
  rw [rebuildAll, rebuildAll, hrp] at h
  simp only [List.map, List.cons.injEq, Prod.mk.injEq] at h
  obtain ⟨⟨-, hpage⟩, -⟩ := h
  simp only [pageHtml] at hpage
  rw [string_append_cancel_left_eq] at hpage
  have e1 : idEnv.toLocaleDateStr
      (if c9Post.published_at = "" then "2026-01-01T00:00:00.000Z" else c9Post.published_at) =
      "2026-01-01T00:00:00.000Z" := rfl
  have e2 : idEnv.toLocaleDateStr
      (if c9Post.published_at = "" then "2026-06-01T00:00:00.000Z" else c9Post.published_at) =
      "2026-06-01T00:00:00.000Z" := rfl
  rw [e1, e2] at hpage
  exact absurd (string_append_inj_left hpage (by decide)) (by decide)

/-- **C4**: a successful create appends exactly one post (with the supplied
id and the current instant as publish timestamp) and the deferred cascade
regenerates exactly the new post plus — when one exists — a published post
with the greatest publish timestamp strictly below the new one, and no
other page. -/
theorem claim_C4 (posts : List Post) (input : CreateInput) (newId now : String)
    (htitle : input.title ≠ "") :
    ∃ newPost s' regens, createPost posts input newId now = some (s', regens) ∧
      s' = posts ++ [newPost] ∧ newPost.id = newId ∧ newPost.published_at = now ∧
      ((regens = [newPost] ∧
          ∀ r ∈ s', r.is_published = true → tsLt r.published_at now = false) ∨
       (∃ q, regens = [newPost, q] ∧ q ∈ s' ∧ q.is_published = true ∧
          tsLt q.published_at now = true ∧
          ∀ r ∈ s', r.is_published = true → tsLt r.published_at now = true →
            tsLe r.published_at q.published_at = true)) := by
  rw [createPost, if_neg htitle]
  exact ⟨_, _, _, rfl, rfl, rfl, rfl, consPrevPublished_cases _ _ _⟩

/-- Witness for `claim_C4` at a concrete store. -/
theorem claim_C4_witness :
    c4Input.title ≠ "" ∧
    createPost fixtureAUP c4Input "n" "2023-01-01T00:00:00.000Z" ≠ none := by
  have h := claim_C4 fixtureAUP c4Input "n" "2023-01-01T00:00:00.000Z" (by decide)
  obtain ⟨np, s', rg, heq, -⟩ := h
  exact ⟨by decide, by rw [heq]; exact fun hc => Option.noConfusion hc⟩

/-- **C10**: a comment submission from an IP with any `ip_blacklist` row is
rejected with 403 and nothing is inserted, even when that row's
`expires_at` lies strictly in the past — `isIpBlacklisted` matches on
`ip_address` alone and never consults the expiry column. -/
theorem claim_C10 (store : Store) (postId author content : String)
    (email parentId replyTo : Option String) (ip : String) (now texp : Int) (newId : String)
    (e : BlacklistEntry) (he : e ∈ store.blacklist) (hip : e.ip_address = ip)
    (hexp : e.expires_at = some texp) (hpast : texp < now) :
    submitComment store postId author email content parentId replyTo ip now newId =
      (.blacklisted, store) ∧ SubmitOutcome.blacklisted.status = 403 := by
  have hbl : isIpBlacklisted store.blacklist ip = true :=
    List.any_eq_true.2 ⟨e, he, by simp [hip]⟩
  refine ⟨?_, rfl⟩
  simp [submitComment, hbl]

/-- Witness for `claim_C10` at a concrete store. -/
theorem claim_C10_witness :
    submitComment c10Store "pc" "bob" none "hey" none none "9.9.9.9" 5000 "cw" =
      (.blacklisted, c10Store) :=
  (claim_C10 c10Store "pc" "bob" "hey" none none none "9.9.9.9" 5000 1000 "cw"
    c10Entry (by decide) rfl rfl (by decide)).1

/-- **C8**: with the earlier checks passing, a submission finding 3 or more
comments from the same IP created strictly within the preceding rolling
60-second window is rejected with 429 and inserts nothing, while fewer
than 3 lets the comment through (inserted unapproved, stamped with the
submitting IP and instant) — so 3 succeed, the 4th inside the window is
rejected, and one after the window elapses succeeds. -/
theorem claim_C8 (store : Store) (postId author content : String)
    (email parentId replyTo : Option String) (ip : String) (now : Int) (newId : String)
    (rtn : Option String)
    (hbl : isIpBlacklisted store.blacklist ip = false)
    (hpost : store.posts.any (fun p => p.id = postId) = true)
    (hauthor : jsTrim author ≠ "") (hcontent : jsTrim content ≠ "")
    (hparent : resolveReplyTo store.comments parentId replyTo = some rtn) :
    (3 ≤ recentCommentCount store.comments ip now →
       submitComment store postId author email content parentId replyTo ip now newId =
         (.rateLimited, store) ∧ SubmitOutcome.rateLimited.status = 429) ∧
    (recentCommentCount store.comments ip now < 3 →
       ∃ c : Comment,
         submitComment store postId author email content parentId replyTo ip now newId =
           (.created c, { store with comments := store.comments ++ [c] }) ∧
         c.ip_address = ip ∧ c.created_at = now ∧ c.is_approved = false ∧
         c.post_id = postId) := by
  constructor
  · intro hge
    refine ⟨?_, rfl⟩
    simp [submitComment, hbl, hpost, hauthor, hcontent, hparent, hge]
  · intro hlt
    have hnot : ¬ (3 ≤ recentCommentCount store.comments ip now) := not_le.2 hlt
    refine ⟨⟨newId, postId, jsTrim author, jsOrNull (email.map jsTrim), jsTrim content,
      ip, now, false, (if jsStrTruthy parentId then parentId else none), jsOrNull rtn⟩,
      ?_, rfl, rfl, rfl, rfl⟩
    simp [submitComment, hbl, hpost, hauthor, hcontent, hparent, hnot]

/-- Witness for `claim_C8`: 3 comments at time 0 rate-limit a 4th at 50s; a submission at 60.001s passes. -/
theorem claim_C8_witness :
    (submitComment c8Store "pc" "dave" none "yo" none none "9.9.9.9" 50000 "c4").1 =
      .rateLimited ∧
    ∃ c : Comment,
      (submitComment c8Store "pc" "dave" none "yo" none none "9.9.9.9" 60001 "c4").1 =
        .created c := by
  have h1 := (claim_C8 c8Store "pc" "dave" "yo" none none none "9.9.9.9" 50000 "c4" none
      rfl (by decide) (by decide) (by decide) rfl).1 (by decide)
  have h2 := (claim_C8 c8Store "pc" "dave" "yo" none none none "9.9.9.9" 60001 "c4" none
      rfl (by decide) (by decide) (by decide) rfl).2 (by decide)
  obtain ⟨c, hc, -⟩ := h2
  exact ⟨by rw [h1.1], c, by rw [hc]⟩

theorem lookup_facts {posts : List Post} {pid : String} {p : Post}
    (h : lookupById posts pid = some p) : p ∈ posts ∧ p.id = pid := by
  refine ⟨List.mem_of_find?_eq_some h, ?_⟩
  have := List.find?_some h
  simpa using this

theorem lookup_id_of_exists {l : List Post} {x : String} (h : ∃ r ∈ l, r.id = x) :
    ∃ r, lookupById l x = some r ∧ r.id = x := by
  obtain ⟨r, hr, hx⟩ := h
  cases hfind : lookupById l x with
  | some r2 =>
    refine ⟨r2, rfl, ?_⟩
    have := List.find?_some hfind
    simpa using this
  | none =>
    have := List.find?_eq_none.1 hfind r hr
    simp [hx] at this

theorem filterMap_lookup_ids {posts2 : List Post} : ∀ {ids : List String},
    (∀ x ∈ ids, ∃ r, lookupById posts2 x = some r ∧ r.id = x) →
    ((ids.filterMap (lookupById posts2)).map (·.id)) = ids := by
  intro ids h
  induction ids with
  | nil => rfl
  | cons x xs ih =>
    obtain ⟨r, hr, hid⟩ := h x (List.mem_cons_self _ _)
    rw [List.filterMap_cons, hr, List.map_cons, hid,
      ih (fun y hy => h y (List.mem_cons_of_mem _ hy))]

theorem id_inj {posts : List Post} (hno : (posts.map (·.id)).Nodup) {a b : Post}
    (ha : a ∈ posts) (hb : b ∈ posts) (h : a.id = b.id) : a = b :=
  List.inj_on_of_nodup_map hno ha hb h

theorem oldNeighborIds_nodup (posts : List Post) (t : String) :
    (oldNeighborIds posts t).Nodup := by
  rw [oldNeighborIds]
  cases prevAny posts t with
  | none =>
    cases nextAny posts t with
    | none => simp
    | some q => simp
  | some q1 =>
    cases nextAny posts t with
    | none => simp
    | some q2 =>
      by_cases h : q2.id = q1.id
      · simp [h]
      · simp [h, Ne.symm h]

theorem map_replace_ids (posts : List Post) (pid : String) (u : Post) (hu : u.id = pid) :
    ((posts.map (fun q => if q.id = pid then u else q)).map (·.id)) = posts.map (·.id) := by
  rw [List.map_map]
  refine List.map_congr_left (fun q hq => ?_)
  by_cases h : q.id = pid
  · simp [h, hu]
  · simp [h]

theorem not_mem_nbr_ids_self {posts : List Post} {p : Post}
    (hno : (posts.map (·.id)).Nodup) (hp : p ∈ posts) :
    p.id ∉ ((prevAny posts p.published_at).map (·.id)).toList ++
      ((nextAny posts p.published_at).map (·.id)).toList := by
  intro hmem
  rw [List.mem_append] at hmem
  rcases hmem with hmem | hmem
  · cases hprev : prevAny posts p.published_at with
    | none => simp [hprev] at hmem
    | some q =>
      simp [hprev] at hmem
      obtain ⟨hqmem, hqlt, -⟩ := prevAny_eq_some hprev
      have hqp : q = p := id_inj hno hqmem hp hmem.symm
      rw [hqp, tsLt_irrefl] at hqlt
      exact absurd hqlt (by simp)
  · cases hnext : nextAny posts p.published_at with
    | none => simp [hnext] at hmem
    | some q =>
      simp [hnext] at hmem
      obtain ⟨hqmem, hqlt, -⟩ := nextAny_eq_some hnext
      have hqp : q = p := id_inj hno hqmem hp hmem.symm
      rw [hqp, tsLt_irrefl] at hqlt
      exact absurd hqlt (by simp)

theorem oldNeighborIds_subset (posts : List Post) (t : String) :
    ∀ x ∈ oldNeighborIds posts t,
      x ∈ ((prevAny posts t).map (·.id)).toList ++ ((nextAny posts t).map (·.id)).toList := by
  intro x hx
  rw [oldNeighborIds] at hx
  cases hprev : prevAny posts t with
  | none =>
    cases hnext : nextAny posts t with
    | none => simp [hprev, hnext] at hx
    | some q2 =>
      simp only [hprev, hnext] at hx ⊢
      simpa using hx
  | some q1 =>
    cases hnext : nextAny posts t with
    | none =>
      simp only [hprev, hnext] at hx ⊢
      simpa using hx
    | some q2 =>
      simp only [hprev, hnext] at hx ⊢
      by_cases hc : q2.id = q1.id
      · simp [hc] at hx
        simp [hx]
      · simp [hc] at hx
        rcases hx with hx | hx <;> simp [hx]

/-- **C1** (amended): a successful PUT on post P regenerates exactly — by
identifier, without duplicates, and never P's own identifier among the
neighbours — P itself plus its prev/next *adjacent posts by publish
timestamp computed over all rows regardless of published/draft status*,
captured both before and after the field update.  (The claim as stated,
with the spec's published-non-draft neighbour definition, fails: see the
counterexample.) -/
theorem claim_C1_amended (posts : List Post) (pid : String) (b : UpdateInput) (orig : Post)
    (hno : (posts.map (·.id)).Nodup) (hlook : lookupById posts pid = some orig) :
    ∃ regens,
      putPost posts pid b = some (postsAfterPut posts pid b orig, regens) ∧
      (regens.map (·.id)).Nodup ∧
      pid ∉ oldNeighborIds posts orig.published_at ∧
      pid ∉ newNeighborIds posts pid b orig ∧
      ∀ x, x ∈ regens.map (·.id) ↔
        x = pid ∨ x ∈ oldNeighborIds posts orig.published_at ∨
          x ∈ newNeighborIds posts pid b orig := by
  obtain ⟨hmem, hpid⟩ := lookup_facts hlook
  simp only [putPost, hlook]
  refine ⟨_, rfl, ?_⟩
  set u := applyUpdate posts orig b with hu
  set posts2 := List.map (fun q => if q.id = pid then u else q) posts with hposts2
  have hpid2 : u.id = pid := hpid
  have hids2 : posts2.map (·.id) = posts.map (·.id) := map_replace_ids posts pid u hpid2
  have hno2 : (posts2.map (·.id)).Nodup := by rw [hids2]; exact hno
  have humem : u ∈ posts2 := by
    rw [hposts2]
    refine List.mem_map.2 ⟨orig, hmem, ?_⟩
    simp [hpid]
  have hnew : newNeighborIds posts pid b orig =
      ((prevAny posts2 u.published_at).map (·.id)).toList ++
      ((nextAny posts2 u.published_at).map (·.id)).toList := rfl
  have hold_pid : pid ∉ oldNeighborIds posts orig.published_at := by
    intro hin
    exact not_mem_nbr_ids_self hno hmem
      (hpid ▸ oldNeighborIds_subset posts orig.published_at pid hin)
  have hnew_pid : pid ∉ newNeighborIds posts pid b orig := by
    rw [hnew]
    intro hin
    exact not_mem_nbr_ids_self hno2 humem (hpid2 ▸ hin)
  have hex : ∀ q ∈ posts, ∃ r ∈ posts2, r.id = q.id := by
    intro q hq
    refine ⟨(if q.id = pid then u else q), ?_, ?_⟩
    · rw [hposts2]; exact List.mem_map_of_mem _ hq
    · by_cases h : q.id = pid
      · simp [h, hpid2]
      · simp [h]
  have holdex : ∀ x ∈ oldNeighborIds posts orig.published_at,
      ∃ r, lookupById posts2 x = some r ∧ r.id = x := by
    intro x hx
    apply lookup_id_of_exists
    have hx2 := oldNeighborIds_subset posts orig.published_at x hx
    rw [List.mem_append] at hx2
    rcases hx2 with hx2 | hx2
    · cases hprev : prevAny posts orig.published_at with
      | none => simp [hprev] at hx2
      | some q =>
        simp [hprev] at hx2
        obtain ⟨hq, -, -⟩ := prevAny_eq_some hprev
        exact hx2 ▸ hex q hq
    · cases hnext : nextAny posts orig.published_at with
      | none => simp [hnext] at hx2
      | some q =>
        simp [hnext] at hx2
        obtain ⟨hq, -, -⟩ := nextAny_eq_some hnext
        exact hx2 ▸ hex q hq
  have hC : ((oldNeighborIds posts orig.published_at).filterMap (lookupById posts2)).map (·.id) =
      oldNeighborIds posts orig.published_at := filterMap_lookup_ids holdex
  have holdnd := oldNeighborIds_nodup posts orig.published_at
  have hconm : ∀ (l : List String) (x : String), l.contains x = true ↔ x ∈ l := by
    intro l x
    simp [List.contains_iff_exists_mem_beq]
  have hqa_facts : ∀ qa, prevAny posts2 u.published_at = some qa → qa.id ≠ pid := by
    intro qa hA he
    apply hnew_pid
    rw [hnew, hA]
    simp [he]
  have hqb_facts : ∀ qb, nextAny posts2 u.published_at = some qb → qb.id ≠ pid := by
    intro qb hB he
    apply hnew_pid
    rw [hnew, hB]
    simp [he]
  have hab : ∀ qa qb, prevAny posts2 u.published_at = some qa →
      nextAny posts2 u.published_at = some qb → qa.id ≠ qb.id := by
    intro qa qb hA hB he
    obtain ⟨hqam, hqal, -⟩ := prevAny_eq_some hA
    obtain ⟨hqbm, hqbl, -⟩ := nextAny_eq_some hB
    have heq : qa = qb := id_inj hno2 hqam hqbm he
    rw [heq] at hqal
    have := tsLt_trans hqbl hqal
    rw [tsLt_irrefl] at this
    exact absurd this (by simp)
  refine ⟨?_, hold_pid, hnew_pid, ?_⟩
  · -- Nodup of the regenerated id list
    cases hA : prevAny posts2 u.published_at with
    | none =>
      cases hB : nextAny posts2 u.published_at with
      | none =>
        simp only [List.append_eq, List.map_append, List.map_cons, List.map_nil, hC, List.append_nil,
          List.nil_append, List.singleton_append, hpid2]
        exact List.nodup_cons.2 ⟨hold_pid, holdnd⟩
      | some qb =>
        have hqbp := hqb_facts qb hB
        by_cases hcb : (oldNeighborIds posts orig.published_at).contains qb.id
        · simp only [hcb, if_true, List.append_eq, List.map_append, List.map_cons, List.map_nil, hC,
            List.append_nil, List.nil_append, List.singleton_append, hpid2]
          exact List.nodup_cons.2 ⟨hold_pid, holdnd⟩
        · rw [Bool.not_eq_true] at hcb
          simp only [hcb, if_false, List.append_eq, List.map_append, List.map_cons, List.map_nil, hC,
            List.append_nil, List.nil_append, List.singleton_append, List.cons_append,
            hpid2]
          refine List.nodup_cons.2 ⟨?_, List.nodup_cons.2 ⟨?_, holdnd⟩⟩
          · intro hin
            rcases List.mem_cons.1 hin with h | h
            · exact hqbp h.symm
            · exact hold_pid h
          · intro hin
            exact absurd ((hconm (oldNeighborIds posts orig.published_at) qb.id).2 hin)
              (by rw [hcb]; simp)
    | some qa =>
      have hqap := hqa_facts qa hA
      cases hB : nextAny posts2 u.published_at with
      | none =>
        by_cases hca : (oldNeighborIds posts orig.published_at).contains qa.id
        · simp only [hca, if_true, List.append_eq, List.map_append, List.map_cons, List.map_nil, hC,
            List.append_nil, List.nil_append, List.singleton_append, hpid2]
          exact List.nodup_cons.2 ⟨hold_pid, holdnd⟩
        · rw [Bool.not_eq_true] at hca
          simp only [hca, if_false, List.append_eq, List.map_append, List.map_cons, List.map_nil, hC,
            List.append_nil, List.nil_append, List.singleton_append, List.cons_append,
            hpid2]
          refine List.nodup_cons.2 ⟨?_, List.nodup_cons.2 ⟨?_, holdnd⟩⟩
          · intro hin
            rcases List.mem_cons.1 hin with h | h
            · exact hqap h.symm
            · exact hold_pid h
          · intro hin
            exact absurd ((hconm (oldNeighborIds posts orig.published_at) qa.id).2 hin)
              (by rw [hca]; simp)
      | some qb =>
        have hqbp := hqb_facts qb hB
        have habne := hab qa qb hA hB
        by_cases hca : (oldNeighborIds posts orig.published_at).contains qa.id
        · by_cases hcb : (oldNeighborIds posts orig.published_at).contains qb.id
          · simp only [hca, hcb, if_true, List.append_eq, List.map_append, List.map_cons, List.map_nil, hC,
              List.append_nil, List.nil_append, List.singleton_append, hpid2]
            exact List.nodup_cons.2 ⟨hold_pid, holdnd⟩
          · rw [Bool.not_eq_true] at hcb
            simp only [hca, hcb, if_true, if_false, List.append_eq, List.map_append, List.map_cons,
              List.map_nil, hC, List.append_nil, List.nil_append, List.singleton_append,
              List.cons_append, hpid2]
            refine List.nodup_cons.2 ⟨?_, List.nodup_cons.2 ⟨?_, holdnd⟩⟩
            · intro hin
              rcases List.mem_cons.1 hin with h | h
              · exact hqbp h.symm
              · exact hold_pid h
            · intro hin
              exact absurd ((hconm (oldNeighborIds posts orig.published_at) qb.id).2 hin)
                (by rw [hcb]; simp)
        · rw [Bool.not_eq_true] at hca
          by_cases hcb : (oldNeighborIds posts orig.published_at).contains qb.id
          · simp only [hca, hcb, if_true, if_false, List.append_eq, List.map_append, List.map_cons,
              List.map_nil, hC, List.append_nil, List.nil_append, List.singleton_append,
              List.cons_append, hpid2]
            refine List.nodup_cons.2 ⟨?_, List.nodup_cons.2 ⟨?_, holdnd⟩⟩
            · intro hin
              rcases List.mem_cons.1 hin with h | h
              · exact hqap h.symm
              · exact hold_pid h
            · intro hin
              exact absurd ((hconm (oldNeighborIds posts orig.published_at) qa.id).2 hin)
                (by rw [hca]; simp)
          · rw [Bool.not_eq_true] at hcb
            simp only [hca, hcb, if_false, List.append_eq, List.map_append, List.map_cons,
              List.map_nil, hC, List.append_nil, List.nil_append, List.singleton_append,
              List.cons_append, hpid2]
            refine List.nodup_cons.2 ⟨?_, List.nodup_cons.2 ⟨?_,
              List.nodup_cons.2 ⟨?_, holdnd⟩⟩⟩
            · intro hin
              rcases List.mem_cons.1 hin with h | h
              · exact hqap h.symm
              · rcases List.mem_cons.1 h with h2 | h2
                · exact hqbp h2.symm
                · exact hold_pid h2
            · intro hin
              rcases List.mem_cons.1 hin with h | h
              · exact habne h
              · exact absurd ((hconm (oldNeighborIds posts orig.published_at) qa.id).2 h)
                  (by rw [hca]; simp)
            · intro hin
              exact absurd ((hconm (oldNeighborIds posts orig.published_at) qb.id).2 hin)
                (by rw [hcb]; simp)
  · -- membership characterisation of the regenerated id list
    intro x
    cases hA : prevAny posts2 u.published_at with
    | none =>
      cases hB : nextAny posts2 u.published_at with
      | none =>
        simp only [hnew, hA, hB, List.append_eq, List.map_append, List.map_cons, List.map_nil, hC, List.append_nil, List.nil_append, List.singleton_append, List.cons_append, hpid2, Option.map_none', Option.map_some', Option.toList_none, Option.toList_some, List.mem_cons, List.mem_append, List.mem_singleton, List.not_mem_nil, or_false, false_or]
      | some qb =>
        by_cases hcb : (oldNeighborIds posts orig.published_at).contains qb.id = true
        · have hqbin := (hconm _ _).1 hcb
          simp only [if_pos hcb, hnew, hA, hB, List.append_eq, List.map_append, List.map_cons, List.map_nil, hC, List.append_nil, List.nil_append, List.singleton_append, List.cons_append, hpid2, Option.map_none', Option.map_some', Option.toList_none, Option.toList_some, List.mem_cons, List.mem_append, List.mem_singleton, List.not_mem_nil, or_false, false_or]
          constructor
          · tauto
          · intro h
            rcases h with h | h | h
            · tauto
            · tauto
            · rw [h]; tauto
        · have hqbnin : qb.id ∉ oldNeighborIds posts orig.published_at :=
            fun hin => hcb ((hconm _ _).2 hin)
          simp only [if_neg hcb, hnew, hA, hB, List.append_eq, List.map_append, List.map_cons, List.map_nil, hC, List.append_nil, List.nil_append, List.singleton_append, List.cons_append, hpid2, Option.map_none', Option.map_some', Option.toList_none, Option.toList_some, List.mem_cons, List.mem_append, List.mem_singleton, List.not_mem_nil, or_false, false_or]
          tauto
    | some qa =>
      cases hB : nextAny posts2 u.published_at with
      | none =>
        by_cases hca : (oldNeighborIds posts orig.published_at).contains qa.id = true
        · have hqain := (hconm _ _).1 hca
          simp only [if_pos hca, hnew, hA, hB, List.append_eq, List.map_append, List.map_cons, List.map_nil, hC, List.append_nil, List.nil_append, List.singleton_append, List.cons_append, hpid2, Option.map_none', Option.map_some', Option.toList_none, Option.toList_some, List.mem_cons, List.mem_append, List.mem_singleton, List.not_mem_nil, or_false, false_or]
          constructor
          · tauto
          · intro h
            rcases h with h | h | h
            · tauto
            · tauto
            · rw [h]; tauto
        · have hqanin : qa.id ∉ oldNeighborIds posts orig.published_at :=
            fun hin => hca ((hconm _ _).2 hin)
          simp only [if_neg hca, hnew, hA, hB, List.append_eq, List.map_append, List.map_cons, List.map_nil, hC, List.append_nil, List.nil_append, List.singleton_append, List.cons_append, hpid2, Option.map_none', Option.map_some', Option.toList_none, Option.toList_some, List.mem_cons, List.mem_append, List.mem_singleton, List.not_mem_nil, or_false, false_or]
          tauto
      | some qb =>
        by_cases hca : (oldNeighborIds posts orig.published_at).contains qa.id = true
        · have hqain := (hconm _ _).1 hca
          by_cases hcb : (oldNeighborIds posts orig.published_at).contains qb.id = true
          · have hqbin := (hconm _ _).1 hcb
            simp only [if_pos hca, if_pos hcb, hnew, hA, hB, List.append_eq, List.map_append, List.map_cons, List.map_nil, hC, List.append_nil, List.nil_append, List.singleton_append, List.cons_append, hpid2, Option.map_none', Option.map_some', Option.toList_none, Option.toList_some, List.mem_cons, List.mem_append, List.mem_singleton, List.not_mem_nil, or_false, false_or]
            constructor
            · tauto
            · intro h
              rcases h with h | h | h | h
              · tauto
              · tauto
              · rw [h]; tauto
              · rw [h]; tauto
          · have hqbnin : qb.id ∉ oldNeighborIds posts orig.published_at :=
              fun hin => hcb ((hconm _ _).2 hin)
            simp only [if_pos hca, if_neg hcb, hnew, hA, hB, List.append_eq, List.map_append, List.map_cons, List.map_nil, hC, List.append_nil, List.nil_append, List.singleton_append, List.cons_append, hpid2, Option.map_none', Option.map_some', Option.toList_none, Option.toList_some, List.mem_cons, List.mem_append, List.mem_singleton, List.not_mem_nil, or_false, false_or]
            constructor
            · tauto
            · intro h
              rcases h with h | h | h | h
              · tauto
              · tauto
              · rw [h]; tauto
              · tauto
        · have hqanin : qa.id ∉ oldNeighborIds posts orig.published_at :=
            fun hin => hca ((hconm _ _).2 hin)
          by_cases hcb : (oldNeighborIds posts orig.published_at).contains qb.id = true
          · have hqbin := (hconm _ _).1 hcb
            simp only [if_neg hca, if_pos hcb, hnew, hA, hB, List.append_eq, List.map_append, List.map_cons, List.map_nil, hC, List.append_nil, List.nil_append, List.singleton_append, List.cons_append, hpid2, Option.map_none', Option.map_some', Option.toList_none, Option.toList_some, List.mem_cons, List.mem_append, List.mem_singleton, List.not_mem_nil, or_false, false_or]
            constructor
            · tauto
            · intro h
              rcases h with h | h | h | h
              · tauto
              · tauto
              · tauto
              · rw [h]; tauto
          · have hqbnin : qb.id ∉ oldNeighborIds posts orig.published_at :=
              fun hin => hcb ((hconm _ _).2 hin)
            simp only [if_neg hca, if_neg hcb, hnew, hA, hB, List.append_eq, List.map_append, List.map_cons, List.map_nil, hC, List.append_nil, List.nil_append, List.singleton_append, List.cons_append, hpid2, Option.map_none', Option.map_some', Option.toList_none, Option.toList_some, List.mem_cons, List.mem_append, List.mem_singleton, List.not_mem_nil, or_false, false_or]
            tauto

/-- **C1** fails as stated: updating `postP` (empty body) regenerates
`postP` and the *unpublished* adjacent `postU`, not the spec-defined
neighbour `postA` — the PUT handler's neighbour queries carry no
`is_published`/`is_draft` filter. -/
theorem claim_C1_counterexample :
    (putPost fixtureAUP "p" {}).map (fun r => r.2.map (·.id)) = some ["p", "u"] ∧
    specPrevNeighbor fixtureAUP postP.published_at = some postA ∧
    specNextNeighbor fixtureAUP postP.published_at = none ∧
    "a" ∉ ["p", "u"] := by
  refine ⟨by decide, by decide, by decide, by decide⟩

/-- Witness for `claim_C1_amended` at a concrete store. -/
theorem claim_C1_witness :
    (fixtureAUP.map (·.id)).Nodup ∧ lookupById fixtureAUP "p" = some postP ∧
    putPost fixtureAUP "p" {} ≠ none := by
  have h := claim_C1_amended fixtureAUP "p" {} postP (by decide) (by decide)
  obtain ⟨regens, heq, -⟩ := h
  exact ⟨by decide, by decide, by rw [heq]; exact fun hc => Option.noConfusion hc⟩

/-- **C3** (amended): a successful DELETE removes exactly the post's row,
deletes exactly its blob, and regenerates exactly the adjacent posts by
publish timestamp computed over all rows regardless of published/draft
status (prev then next, captured before the delete); with no adjacent
rows nothing is regenerated.  (The claim as stated, with the spec's
published-non-draft neighbour definition, fails: see the
counterexample.) -/
theorem claim_C3_amended (posts : List Post) (pid : String) (p : Post)
    (hlook : lookupById posts pid = some p) :
    deletePost posts pid =
      some (posts.filter (fun q => ¬ q.id = pid), [p.slug],
        (prevAny posts p.published_at).toList ++ (nextAny posts p.published_at).toList) ∧
    (∀ q, prevAny posts p.published_at = some q →
       q ∈ posts ∧ tsLt q.published_at p.published_at = true ∧
       ∀ r ∈ posts, tsLt r.published_at p.published_at = true →
         tsLe r.published_at q.published_at = true) ∧
    (prevAny posts p.published_at = none →
       ∀ r ∈ posts, tsLt r.published_at p.published_at = false) ∧
    (∀ q, nextAny posts p.published_at = some q →
       q ∈ posts ∧ tsLt p.published_at q.published_at = true ∧
       ∀ r ∈ posts, tsLt p.published_at r.published_at = true →
         tsLe q.published_at r.published_at = true) ∧
    (nextAny posts p.published_at = none →
       ∀ r ∈ posts, tsLt p.published_at r.published_at = false) ∧
    ((∀ r ∈ posts, tsLt r.published_at p.published_at = false ∧
        tsLt p.published_at r.published_at = false) →
      (prevAny posts p.published_at).toList ++ (nextAny posts p.published_at).toList = []) := by
  refine ⟨by simp only [deletePost, hlook], fun q h => prevAny_eq_some h,
    fun h => prevAny_eq_none h, fun q h => nextAny_eq_some h,
    fun h => nextAny_eq_none h, fun hno2 => ?_⟩
  cases hprev : prevAny posts p.published_at with
  | some q =>
    obtain ⟨hq, hlt, -⟩ := prevAny_eq_some hprev
    rw [(hno2 q hq).1] at hlt
    exact absurd hlt (by simp)
  | none =>
    cases hnext : nextAny posts p.published_at with
    | some q =>
      obtain ⟨hq, hlt, -⟩ := nextAny_eq_some hnext
      rw [(hno2 q hq).2] at hlt
      exact absurd hlt (by simp)
    | none => rfl

/-- **C3** fails as stated: deleting `postP` regenerates the *unpublished*
adjacent `postU` and not the spec-defined neighbour `postA`. -/
theorem claim_C3_counterexample :
    deletePost fixtureAUP "p" = some ([postA, postU], ["p"], [postU]) ∧
    specPrevNeighbor fixtureAUP postP.published_at = some postA ∧
    specNextNeighbor fixtureAUP postP.published_at = none ∧
    postA ∉ [postU] := by
  refine ⟨by decide, by decide, by decide, by decide⟩

/-- Witness for `claim_C3_amended` at a concrete store. -/
theorem claim_C3_witness :
    lookupById fixtureAUP "p" = some postP ∧ deletePost fixtureAUP "p" ≠ none := by
  have h := (claim_C3_amended fixtureAUP "p" postP (by decide)).1
  exact ⟨by decide, by rw [h]; exact fun hc => Option.noConfusion hc⟩

theorem digitCh_toNat {d : Nat} (hd : d < 10) : (digitCh d).toNat = 48 + d := by
  interval_cases d <;> rfl

theorem decVal_singleton (c : Char) : decVal [c] = c.toNat - 48 := by
  simp [decVal]

theorem decVal_append_digit (l : List Char) (c : Char) :
    decVal (l ++ [c]) = 10 * decVal l + (c.toNat - 48) := by
  simp [decVal, List.foldl_append]

theorem decVal_decDigitsGo : ∀ (fuel n : Nat), n < 10 ^ (fuel + 1) →
    decVal (decDigitsGo fuel n) = n := by
  intro fuel
  induction fuel with
  | zero =>
    intro n hn
    rw [pow_one] at hn
    rw [decDigitsGo, decVal_singleton, digitCh_toNat hn]
    omega
  | succ fuel ih =>
    intro n hn
    rw [decDigitsGo]
    by_cases h10 : n < 10
    · rw [if_pos h10, decVal_singleton, digitCh_toNat h10]
      omega
    · rw [if_neg h10, decVal_append_digit, digitCh_toNat (Nat.mod_lt n (by omega))]
      have hdiv : n / 10 < 10 ^ (fuel + 1) := by
        rw [Nat.div_lt_iff_lt_mul (by omega)]
        calc n < 10 ^ (fuel + 1 + 1) := hn
        _ = 10 ^ (fuel + 1) * 10 := by ring
      rw [ih (n / 10) hdiv]
      omega

theorem decVal_decDigits (n : Nat) : decVal (decDigits n) = n := by
  rw [decDigits]
  refine decVal_decDigitsGo n n ?_
  calc n < 10 ^ n := Nat.lt_pow_self (by omega) n
  _ ≤ 10 ^ (n + 1) := Nat.pow_le_pow_right (by omega) (by omega)

theorem natToDec_inj {m n : Nat} (h : natToDec m = natToDec n) : m = n := by
  have hd : decDigits m = decDigits n := congrArg String.data h
  calc m = decVal (decDigits m) := (decVal_decDigits m).symm
  _ = decVal (decDigits n) := by rw [hd]
  _ = n := decVal_decDigits n

theorem decDigitsGo_ne_nil (fuel n : Nat) : decDigitsGo fuel n ≠ [] := by
  cases fuel with
  | zero => simp [decDigitsGo]
  | succ fuel =>
    rw [decDigitsGo]
    split
    · simp
    · simp

theorem slugCandidate_inj (base : String) {i j : Nat}
    (h : slugCandidate base i = slugCandidate base j) : i = j := by
  rcases Nat.eq_zero_or_pos i with hi | hi <;> rcases Nat.eq_zero_or_pos j with hj | hj
  · omega
  · exfalso
    rw [slugCandidate, slugCandidate, if_pos hi, if_neg (by omega)] at h
    have hd := congrArg String.data h
    rw [String.data_append, String.data_append] at hd
    have hlen := congrArg List.length hd
    rw [List.length_append, List.length_append] at hlen
    have : (natToDec j).data.length ≠ 0 := by
      rw [natToDec]
      simpa using decDigitsGo_ne_nil j j
    have h1 : ("-" : String).data.length = 1 := rfl
    omega
  · exfalso
    rw [slugCandidate, slugCandidate, if_neg (by omega), if_pos hj] at h
    have hd := congrArg String.data h
    rw [String.data_append, String.data_append] at hd
    have hlen := congrArg List.length hd
    rw [List.length_append, List.length_append] at hlen
    have : (natToDec i).data.length ≠ 0 := by
      rw [natToDec]
      simpa using decDigitsGo_ne_nil i i
    have h1 : ("-" : String).data.length = 1 := rfl
    omega
  · rw [slugCandidate, slugCandidate, if_neg (by omega), if_neg (by omega)] at h
    rw [String.append_assoc, String.append_assoc] at h
    have hd := congrArg String.data h
    simp only [String.data_append] at hd
    have h2 := List.append_cancel_left hd
    have h3 := List.append_cancel_left h2
    exact natToDec_inj (String.ext h3)

theorem exists_untaken (taken : String → Bool) (S : Finset String)
    (hsub : ∀ c, taken c = true → c ∈ S) (base : String) :
    ∃ k, k ≤ S.card ∧ taken (slugCandidate base k) = false := by
  by_contra hc
  push_neg at hc
  have hall : ∀ k, k ≤ S.card → taken (slugCandidate base k) = true := by
    intro k hk
    have := hc k hk
    revert this
    cases taken (slugCandidate base k) <;> simp
  have hmaps : ∀ k ∈ Finset.range (S.card + 1), slugCandidate base k ∈ S := by
    intro k hk
    have hk2 := Finset.mem_range.1 hk
    exact hsub _ (hall k (by omega))
  have hinj : Set.InjOn (slugCandidate base) (Finset.range (S.card + 1)) := by
    intro a _ b _ hab
    exact slugCandidate_inj base hab
  have hcard := Finset.card_le_card_of_injOn (slugCandidate base) hmaps hinj
  rw [Finset.card_range] at hcard
  omega

theorem slugLoop_untaken (taken : String → Bool) (base : String) :
    ∀ (fuel k : Nat), (∃ j, k ≤ j ∧ j < k + fuel ∧ taken (slugCandidate base j) = false) →
    taken (slugLoop taken base k fuel) = false := by
  intro fuel
  induction fuel with
  | zero =>
    intro k ⟨j, h1, h2, _⟩
    omega
  | succ fuel ih =>
    intro k ⟨j, hj1, hj2, hj3⟩
    rw [slugLoop]
    by_cases htk : taken (slugCandidate base k) = true
    · rw [if_pos htk]
      refine ih (k + 1) ⟨j, ?_, by omega, hj3⟩
      rcases Nat.eq_or_lt_of_le hj1 with rfl | h
      · rw [htk] at hj3; exact absurd hj3 (by simp)
      · omega
    · rw [if_neg htk]
      revert htk
      cases taken (slugCandidate base k) <;> simp

theorem slugLoop_is_candidate (taken : String → Bool) (base : String) :
    ∀ (fuel k : Nat), ∃ j, slugLoop taken base k fuel = slugCandidate base j := by
  intro fuel
  induction fuel with
  | zero => intro k; exact ⟨k, rfl⟩
  | succ fuel ih =>
    intro k
    rw [slugLoop]
    by_cases htk : taken (slugCandidate base k) = true
    · rw [if_pos htk]; exact ih (k + 1)
    · rw [if_neg htk]; exact ⟨k, rfl⟩

theorem slugBase_ne_empty (title : String) : slugBase title ≠ "" := by
  rw [slugBase]
  split
  · intro h
    exact absurd (congrArg String.data h) (by simp)
  · assumption

theorem slugCandidate_ne_empty (base : String) (hb : base ≠ "") (k : Nat) :
    slugCandidate base k ≠ "" := by
  rw [slugCandidate]
  split
  · exact hb
  · intro h
    have hd := congrArg String.data h
    rw [String.data_append, String.data_append] at hd
    rcases List.append_eq_nil.1 hd with ⟨h1, -⟩
    rcases List.append_eq_nil.1 h1 with ⟨-, h2⟩
    exact absurd h2 (by simp)

theorem generateUniqueSlug_untaken (posts : List Post) (title : String)
    (excludeId : Option String) :
    slugTaken posts excludeId (generateUniqueSlug posts title excludeId) = false := by
  rw [generateUniqueSlug]
  set taken := slugTaken posts excludeId with htakendef
  have hsub : ∀ c, taken c = true → c ∈ (posts.map (·.slug)).toFinset := by
    intro c hc
    rw [htakendef, slugTaken, List.any_eq_true] at hc
    obtain ⟨p, hp, hpc⟩ := hc
    rw [Bool.and_eq_true, decide_eq_true_eq] at hpc
    rw [List.mem_toFinset]
    exact hpc.1 ▸ List.mem_map_of_mem _ hp
  obtain ⟨k, hk, hfree⟩ := exists_untaken taken _ hsub (slugBase title)
  refine slugLoop_untaken taken (slugBase title) (posts.length + 1) 0 ⟨k, by omega, ?_, hfree⟩
  have hcard : (posts.map (·.slug)).toFinset.card ≤ posts.length := by
    calc (posts.map (·.slug)).toFinset.card ≤ (posts.map (·.slug)).length :=
      List.toFinset_card_le _
    _ = posts.length := List.length_map _ _
  omega

theorem slugLoop_first (taken : String → Bool) (base : String) :
    ∀ (fuel k : Nat), (∃ j, k ≤ j ∧ j < k + fuel ∧ taken (slugCandidate base j) = false) →
    ∃ m, k ≤ m ∧ slugLoop taken base k fuel = slugCandidate base m ∧
      taken (slugCandidate base m) = false ∧
      ∀ i, k ≤ i → i < m → taken (slugCandidate base i) = true := by
  intro fuel
  induction fuel with
  | zero =>
    intro k hk
    obtain ⟨j, h1, h2, -⟩ := hk
    omega
  | succ fuel ih =>
    intro k hk
    obtain ⟨j, hj1, hj2, hj3⟩ := hk
    rw [slugLoop]
    by_cases htk : taken (slugCandidate base k) = true
    · rw [if_pos htk]
      have hjk : j ≠ k := by
        intro h
        rw [h, htk] at hj3
        exact absurd hj3 (by simp)
      obtain ⟨m, hm1, hm2, hm3, hm4⟩ := ih (k + 1) ⟨j, by omega, by omega, hj3⟩
      refine ⟨m, by omega, hm2, hm3, fun i hi1 hi2 => ?_⟩
      rcases Nat.eq_or_lt_of_le hi1 with h | h
      · rw [← h]
        exact htk
      · exact hm4 i (by omega) hi2
    · rw [if_neg htk]
      refine ⟨k, le_refl k, rfl, ?_, fun i hi1 hi2 => absurd (lt_of_le_of_lt hi1 hi2) (lt_irrefl k)⟩
      revert htk
      cases taken (slugCandidate base k) <;> simp

theorem generateUniqueSlug_spec (posts : List Post) (title : String) (excludeId : Option String) :
    ∃ k, generateUniqueSlug posts title excludeId = slugCandidate (slugBase title) k ∧
      slugTaken posts excludeId (slugCandidate (slugBase title) k) = false ∧
      ∀ i, i < k → slugTaken posts excludeId (slugCandidate (slugBase title) i) = true := by
  rw [generateUniqueSlug]
  set taken := slugTaken posts excludeId with htakendef
  have hsub : ∀ c, taken c = true → c ∈ (posts.map (·.slug)).toFinset := by
    intro c hc
    rw [htakendef, slugTaken, List.any_eq_true] at hc
    obtain ⟨p, hp, hpc⟩ := hc
    rw [Bool.and_eq_true, decide_eq_true_eq] at hpc
    rw [List.mem_toFinset]
    exact hpc.1 ▸ List.mem_map_of_mem _ hp
  obtain ⟨k, hk, hfree⟩ := exists_untaken taken _ hsub (slugBase title)
  have hcard : (posts.map (·.slug)).toFinset.card ≤ posts.length := by
    calc (posts.map (·.slug)).toFinset.card ≤ (posts.map (·.slug)).length :=
      List.toFinset_card_le _
    _ = posts.length := List.length_map _ _
  obtain ⟨m, -, hm2, hm3, hm4⟩ :=
    slugLoop_first taken (slugBase title) (posts.length + 1) 0 ⟨k, by omega, by omega, hfree⟩
  exact ⟨m, hm2, hm3, fun i hi => hm4 i (by omega) hi⟩

theorem generateUniqueSlug_ne_empty (posts : List Post) (title : String)
    (excludeId : Option String) : generateUniqueSlug posts title excludeId ≠ "" := by
  obtain ⟨k, h1, -, -⟩ := generateUniqueSlug_spec posts title excludeId
  rw [h1]
  exact slugCandidate_ne_empty _ (slugBase_ne_empty title) k

theorem generateUniqueSlug_not_slug_of {posts : List Post} {p : Post} (title : String)
    {excludeId : Option String} (hp : p ∈ posts) (hne : excludeId ≠ some p.id) :
    p.slug ≠ generateUniqueSlug posts title excludeId := by
  intro h
  have htrue : slugTaken posts excludeId (generateUniqueSlug posts title excludeId) = true := by
    rw [slugTaken, List.any_eq_true]
    refine ⟨p, hp, ?_⟩
    rw [Bool.and_eq_true, decide_eq_true_eq]
    refine ⟨h, ?_⟩
    cases excludeId with
    | none => rfl
    | some e =>
      simp only [decide_eq_true_eq]
      intro he
      exact hne (by rw [he])
  rw [generateUniqueSlug_untaken posts title excludeId] at htrue
  exact absurd htrue (by simp)

theorem lookup_map_replace (s : List Post) (pid : String) (u : Post) (hu : u.id = pid)
    (h : ∃ p, lookupById s pid = some p) :
    lookupById (s.map (fun q => if q.id = pid then u else q)) pid = some u := by
  induction s with
  | nil =>
    obtain ⟨p, hp⟩ := h
    exact absurd hp (by simp [lookupById])
  | cons a rest ih =>
    by_cases ha : a.id = pid
    · rw [List.map_cons, if_pos ha]
      rw [lookupById]
      exact List.find?_cons_of_pos _ (by simp [hu])
    · rw [List.map_cons, if_neg ha]
      rw [lookupById, List.find?_cons_of_neg _ (by simp [ha])]
      refine ih ?_
      obtain ⟨p, hp⟩ := h
      rw [lookupById, List.find?_cons_of_neg _ (by simp [ha])] at hp
      exact ⟨p, hp⟩

theorem slug_inj {posts : List Post} (hno : (posts.map (·.slug)).Nodup) {a b : Post}
    (ha : a ∈ posts) (hb : b ∈ posts) (h : a.slug = b.slug) : a = b :=
  List.inj_on_of_nodup_map hno ha hb h

theorem nodup_slug_replace (pid : String) (u : Post) (hui : u.id = pid) :
    ∀ (s : List Post), (s.map (·.id)).Nodup → (s.map (·.slug)).Nodup →
    (∀ q ∈ s, q.id ≠ pid → q.slug ≠ u.slug) →
    ((s.map (fun q => if q.id = pid then u else q)).map (·.slug)).Nodup := by
  intro s
  induction s with
  | nil => intro _ _ _; simp
  | cons a rest ih =>
    intro hid hsl hq
    simp only [List.map_cons, List.nodup_cons] at hid hsl
    obtain ⟨hida, hidr⟩ := hid
    obtain ⟨hsla, hslr⟩ := hsl
    by_cases ha : a.id = pid
    · rw [List.map_cons, if_pos ha]
      have hrest : rest.map (fun q => if q.id = pid then u else q) = rest := by
        have h1 : rest.map (fun q => if q.id = pid then u else q) = rest.map id := by
          refine List.map_congr_left (fun q hq2 => ?_)
          have hne : q.id ≠ pid := by
            intro h
            exact hida ((ha.trans h.symm) ▸ List.mem_map_of_mem _ hq2)
          rw [if_neg hne]
          rfl
        rw [h1, List.map_id]
      rw [hrest, List.map_cons, List.nodup_cons]
      refine ⟨?_, hslr⟩
      intro hmem
      obtain ⟨q, hq2, hq3⟩ := List.mem_map.1 hmem
      have hqid : q.id ≠ pid := by
        intro h
        exact hida ((ha.trans h.symm) ▸ List.mem_map_of_mem _ hq2)
      exact hq q (List.mem_cons_of_mem a hq2) hqid hq3
    · rw [List.map_cons, if_neg ha, List.map_cons, List.nodup_cons]
      refine ⟨?_, ih hidr hslr (fun q hq2 hq3 => hq q (List.mem_cons_of_mem a hq2) hq3)⟩
      intro hmem
      obtain ⟨q0, hq2, hq3⟩ := List.mem_map.1 hmem
      obtain ⟨q, hq4, hq5⟩ := List.mem_map.1 hq2
      by_cases hqid : q.id = pid
      · rw [hq5.symm, if_pos hqid] at hq3
        exact hq a (List.mem_cons_self a rest) ha hq3.symm
      · rw [hq5.symm, if_neg hqid] at hq3
        exact hsla (hq3 ▸ List.mem_map_of_mem _ hq4)

theorem applyUpdate_id (posts : List Post) (p : Post) (b : UpdateInput) :
    (applyUpdate posts p b).id = p.id := rfl

theorem applyUpdate_slug_cases (posts : List Post) (p : Post) (b : UpdateInput) :
    (applyUpdate posts p b).slug = p.slug ∨
    ∃ t, (applyUpdate posts p b).slug = generateUniqueSlug posts t (some p.id) := by
  rw [applyUpdate]
  cases b.title with
  | none => exact Or.inl rfl
  | some t =>
    by_cases hc : t ≠ "" ∧ t ≠ p.title
    · exact Or.inr ⟨t, by simp only [if_pos hc]⟩
    · exact Or.inl (by simp only [if_neg hc])

theorem createPost_eq_some {posts s' regens : List Post} {input : CreateInput}
    {newId now : String} (h : createPost posts input newId now = some (s', regens)) :
    ∃ np : Post, s' = posts ++ [np] ∧ np.id = newId ∧
      np.slug = generateUniqueSlug posts input.title (some newId) := by
  rw [createPost] at h
  split at h
  · exact absurd h (by simp)
  · simp only [Option.some.injEq, Prod.mk.injEq] at h
    refine ⟨_, h.1.symm, rfl, ?_⟩
    show (if generateUniqueSlug posts input.title (some newId) = "" then newId
          else generateUniqueSlug posts input.title (some newId)) = _
    rw [if_neg (generateUniqueSlug_ne_empty _ _ _)]

theorem reachable_invariant : ∀ s, Reachable s → (s.map (·.id)).Nodup ∧ (s.map (·.slug)).Nodup := by
  intro s h
  induction h with
  | empty => simp
  | create hre hfresh hcp ih =>
    obtain ⟨np, hs2, hnpid, hnpslug⟩ := createPost_eq_some hcp
    rw [hs2]
    constructor
    · rw [List.map_append]
      refine List.Nodup.append ih.1 (by simp) ?_
      intro x hx hx2
      simp only [List.map_cons, List.map_nil, List.mem_singleton] at hx2
      obtain ⟨q, hq, hq2⟩ := List.mem_map.1 hx
      rw [hx2, hnpid] at hq2
      exact hfresh q hq hq2
    · rw [List.map_append]
      refine List.Nodup.append ih.2 (by simp) ?_
      intro x hx hx2
      simp only [List.map_cons, List.map_nil, List.mem_singleton] at hx2
      obtain ⟨q, hq, hq2⟩ := List.mem_map.1 hx
      rw [hx2, hnpslug] at hq2
      refine generateUniqueSlug_not_slug_of _ hq ?_ hq2
      simp only [ne_eq, Option.some.injEq]
      intro h
      exact hfresh q hq h.symm
  | update hre hpp ih =>
    rw [putPost] at hpp
    split at hpp
    · exact absurd hpp (by simp)
    · rename_i orig horig
      simp only [Option.some.injEq, Prod.mk.injEq] at hpp
      obtain ⟨h1, -⟩ := hpp
      rw [← h1]
      have hor := lookup_facts horig
      constructor
      · rw [map_replace_ids _ _ _ ((applyUpdate_id _ _ _).trans hor.2)]
        exact ih.1
      · refine nodup_slug_replace _ _ ((applyUpdate_id _ _ _).trans hor.2) _ ih.1 ih.2 ?_
        intro q hq hqid hqslug
        rcases applyUpdate_slug_cases _ orig _ with hs | ⟨t, hs⟩
        · rw [hs] at hqslug
          have := slug_inj ih.2 hq hor.1 hqslug
          rw [this] at hqid
          exact hqid hor.2
        · rw [hs] at hqslug
          refine generateUniqueSlug_not_slug_of t hq ?_ hqslug
          intro h
          rw [Option.some.injEq] at h
          exact hqid (h ▸ hor.2)

/-- **C6**: `generateUniqueSlug(db, title, excludeId)` builds the base slug
by the source pipeline — lower-casing the title, turning whitespace runs
into single hyphens, stripping characters outside the allow-list (Latin
letters, digits, CJK, hyphen, underscore), collapsing repeated hyphens,
trimming edge hyphens, and falling back to the constant `"post"` when the
result is empty (all of which is `slugBase`) — then tries `base`, `base-1`,
`base-2`, … in order.  For every title and post set the returned slug is
non-empty, never equals the slug of a post other than `excludeId`, and is
exactly the first candidate in that sequence that collides with no post
other than `excludeId`. -/
theorem claim_C6 (posts : List Post) (title : String) (excludeId : Option String) :
    generateUniqueSlug posts title excludeId ≠ "" ∧
    (∀ p ∈ posts, excludeId ≠ some p.id →
      p.slug ≠ generateUniqueSlug posts title excludeId) ∧
    ∃ k, generateUniqueSlug posts title excludeId = slugCandidate (slugBase title) k ∧
      slugTaken posts excludeId (slugCandidate (slugBase title) k) = false ∧
      ∀ i, i < k → slugTaken posts excludeId (slugCandidate (slugBase title) i) = true :=
  ⟨generateUniqueSlug_ne_empty posts title excludeId,
   fun p hp hne => generateUniqueSlug_not_slug_of title hp hne,
   generateUniqueSlug_spec posts title excludeId⟩

/-- Concrete instance of C6: slugifying the title `"A"` against the
three-post fixture yields a non-empty slug that avoids `postU`'s slug. -/
theorem claim_C6_witness :
    generateUniqueSlug fixtureAUP "A" none ≠ "" ∧
    postU.slug ≠ generateUniqueSlug fixtureAUP "A" none := by
  obtain ⟨h1, h2, -⟩ := claim_C6 fixtureAUP "A" none
  exact ⟨h1, h2 postU (by decide) (by decide)⟩

/-- **C5**: in every state reachable from the empty table by any sequence
of post creations (POST) and updates (PUT), no two live posts share a slug;
and re-titling a post to a title whose base slug was previously used but is
now free succeeds: the PUT goes through and the post's stored slug becomes
exactly that freed base slug, with no numeric suffix. -/
theorem claim_C5 :
    (∀ s, Reachable s → (s.map (·.slug)).Nodup) ∧
    (∀ (s : List Post) (pid : String) (b : UpdateInput) (p : Post) (t : String),
      Reachable s → lookupById s pid = some p → b.title = some t →
      t ≠ "" → t ≠ p.title →
      slugTaken s (some pid) (slugBase t) = false →
      ∃ s2 regens q, putPost s pid b = some (s2, regens) ∧
        lookupById s2 pid = some q ∧ q.slug = slugBase t) := by
  constructor
  · exact fun s h => (reachable_invariant s h).2
  · intro s pid b p t hre hlk hbt htne httne hfree
    have hpfacts := lookup_facts hlk
    have hgus : generateUniqueSlug s t (some pid) = slugBase t := by
      obtain ⟨k, h1, h2, h3⟩ := generateUniqueSlug_spec s t (some pid)
      rcases Nat.eq_zero_or_pos k with hk | hk
      · rw [hk] at h1
        rw [h1, slugCandidate, if_pos rfl]
      · exfalso
        have h0 := h3 0 hk
        have hc0 : slugCandidate (slugBase t) 0 = slugBase t := by
          rw [slugCandidate, if_pos rfl]
        rw [hc0, hfree] at h0
        exact absurd h0 (by simp)
    cases hput : putPost s pid b with
    | none =>
      rw [putPost, hlk] at hput
      exact absurd hput (by simp)
    | some pr =>
      obtain ⟨s2, regens⟩ := pr
      rw [putPost, hlk] at hput
      simp only [Option.some.injEq, Prod.mk.injEq] at hput
      obtain ⟨hs2, -⟩ := hput
      refine ⟨s2, regens, applyUpdate s p b, rfl, ?_, ?_⟩
      · rw [← hs2]
        exact lookup_map_replace s pid _ ((applyUpdate_id s p b).trans hpfacts.2) ⟨p, hlk⟩
      · have hslug : (applyUpdate s p b).slug =
          (match b.title with
           | some t2 =>
             if t2 ≠ "" ∧ t2 ≠ p.title then generateUniqueSlug s t2 (some p.id) else p.slug
           | none => p.slug) := rfl
        rw [hslug, hbt]
        show (if t ≠ "" ∧ t ≠ p.title then generateUniqueSlug s t (some p.id) else p.slug) =
          slugBase t
        rw [if_pos ⟨htne, httne⟩, hpfacts.2]
        exact hgus

/-- Concrete instance of C5: the single-post state created from the empty
table is reachable and duplicate-free, and re-titling that post to
`"World"` stores the freed base slug `world`. -/
theorem claim_C5_witness :
    ([c5Post].map (·.slug)).Nodup ∧
    ∃ s2 regens q, putPost [c5Post] "i1" c5Update = some (s2, regens) ∧
      lookupById s2 "i1" = some q ∧ q.slug = slugBase "World" := by
  have hre : Reachable [c5Post] :=
    @Reachable.create [] [c5Post] [c5Post] c5Input "i1" "2020-01-01T00:00:00.000Z"
      Reachable.empty (by decide) (by decide)
  exact ⟨claim_C5.1 [c5Post] hre,
    claim_C5.2 [c5Post] "i1" c5Update c5Post "World" hre (by decide) rfl (by decide)
      (by decide) (by decide)⟩

end Blog
